import Mathlib

/-!
Shallow embedding of the embroider build-time template resolver
(`packages/compat/src/resolver-transform.ts`) and proofs about it.

The embedding mirrors the source file construct by construct:

* `builtInKeywords`, the `Resolution` variants, `ComponentLocator`
  (lines 46-131 of the source);
* the `TemplateResolver` methods `reportError`, `humanReadableFile`,
  `handleComponentHelper`, `handleDynamicComponentArguments`,
  `staticComponentsEnabled`/`staticHelpersEnabled`/`staticModifiersEnabled`,
  `isIgnoredComponent`, `findRules`, `targetComponent`,
  `targetComponentHelper`, `targetHelper`, `targetHelperOrComponent`,
  `targetElementModifier`, `targetDynamicModifier`, `targetDynamicHelper`,
  `nameHint`, `handleDynamicModifier`, `handleDynamicHelper` and the
  `MustacheStatement`, `BlockStatement` and `ElementNode` visitors;
* the `ScopeStack` class (`push`, `pop`, `enteringComponentBlock`,
  `inScope`, `safeComponentInScope`).

Mutable state becomes explicit state passing: the scope stack is a
`List ScopeEntry` threaded through the functions, the in-place `push`
onto a marker's `argumentsAreComponents` array becomes rebuilding the
stack with an updated marker, and `reportError`'s side effects become a
returned list of `ResolutionFail` values (respectively a `ReportOutcome`
for the throw/collect/drop decision itself).

The preprocessed rule shapes (`PreprocessedComponentRule`) come from
`dependency-rules.ts`, which is outside the vendored sources; their
fields are pinned exactly by how `resolver-transform.ts` reads them
(`disambiguate[path]`, `safeInteriorPaths.includes`, `safeToIgnore`,
`yieldsSafeComponents[i]` being `true` or an object of booleans,
`yieldsArguments[i]` being a string or an object of strings,
`argumentsAreComponents` a string array), and the spec's §3 "Component
Rule"/"Template Rule" descriptions, which this embedding follows.
The memoized `rules` getter that builds the two lookup maps from
`activePackageRules` is likewise taken as an input (`Rules`), since the
claims under study quantify over the resulting maps, not over their
construction.
-/

namespace EmbroiderResolver

/-- Source location attached to nodes and errors (the `Loc` of `audit.ts`;
its internal shape is irrelevant to the resolver, which only threads it). -/
structure Loc where
  line : Nat := 0
  column : Nat := 0
deriving DecidableEq, Repr

/-- An entry of a `disambiguate` template rule:
`'component' | 'helper' | 'data'`. -/
inductive Disamb where
  | component
  | helper
  | data
deriving DecidableEq, Repr

/-- One entry of `yieldsSafeComponents`: in the source this is `true`
(or another boolean), or an object mapping second-level field names to
booleans; an absent entry is `Option.none` at the use sites. -/
inductive YCEntry where
  | b (val : Bool)
  | m (fields : List (String × Bool))
deriving DecidableEq, Repr

/-- One entry of `yieldsArguments`: a source argument name, or an object
mapping second-level field names to source argument names. -/
inductive YAEntry where
  | s (arg : String)
  | m (fields : List (String × String))
deriving DecidableEq, Repr

/-- The preprocessed rule record produced by `preprocessComponentRule`
(dependency-rules.ts) and consumed field by field by the resolver. -/
structure PreprocessedComponentRule where
  yieldsSafeComponents : List YCEntry := []
  yieldsArguments : List YAEntry := []
  argumentsAreComponents : List String := []
  safeToIgnore : Bool := false
  disambiguate : List (String × Disamb) := []
  safeInteriorPaths : List String := []
deriving DecidableEq, Repr

/-- The two lookup maps built by the memoized `rules` getter:
component rules keyed by dasherized name, template rules keyed by
absolute file path. Modeled as association lists with first-match
lookup. -/
structure Rules where
  files : List (String × PreprocessedComponentRule) := []
  components : List (String × PreprocessedComponentRule) := []
deriving DecidableEq, Repr

/-- The serializable `UserConfig` subset of the compat options. -/
structure UserConfig where
  staticHelpers : Bool := false
  staticModifiers : Bool := false
  staticComponents : Bool := false
  allowUnsafeDynamicComponents : Bool := false
deriving DecidableEq, Repr

/-- The per-file state of a `TemplateResolver` instance: its config and
rule maps, the processed file's name and contents, the app root, and
whether a global audit handler was registered at construction time. -/
structure Resolver where
  config : UserConfig := {}
  appRoot : String := "/app"
  rules : Rules := {}
  filename : String := "/app/templates/application.hbs"
  contents : String := ""
  auditHandler : Bool := false
deriving DecidableEq, Repr

/-- First-match association list lookup, standing in for `Map.get` /
JS object property access. -/
def assocLookup {β : Type} (l : List (String × β)) (key : String) : Option β :=
  match l with
  | [] => none
  | (k, v) :: rest => if k = key then some v else assocLookup rest key

/-- `Array.prototype.indexOf`, returning `none` for `-1`. -/
def findIndex (target : String) : List String → Option Nat
  | [] => none
  | x :: xs => if x = target then some 0 else (findIndex target xs).map (· + 1)

/-- JS `String.prototype.split` with a single-character separator,
written primitive-recursively over the string's characters so that it
evaluates inside the kernel (which the library `String.splitOn` does
not); agrees with JS `split` for the one-character separators the
resolver uses (`'.'`, `'@'`, `'-'`). -/
def splitOnCharAux (sep : Char) : List Char → List Char → List String
  | [], acc => [String.mk acc.reverse]
  | c :: rest, acc =>
    if c = sep then String.mk acc.reverse :: splitOnCharAux sep rest []
    else splitOnCharAux sep rest (c :: acc)

def splitOnChar (sep : Char) (s : String) : List String :=
  splitOnCharAux sep s.data []

/-- JS `String.prototype.includes` for a single character. -/
def strContains (s : String) (c : Char) : Bool :=
  s.data.contains c

/-- JS `String.prototype.startsWith` for a one-character prefix. -/
def strStartsWithChar (s : String) (c : Char) : Bool :=
  match s.data with
  | x :: _ => x = c
  | [] => false

/-- JS `String.prototype.endsWith` for a one-character suffix. -/
def strEndsWithChar (s : String) (c : Char) : Bool :=
  match s.data.getLast? with
  | some x => x = c
  | none => false

/-- JS `String.prototype.startsWith` for a full prefix string. -/
def strHasPrefix (pre s : String) : Bool :=
  pre.data.isPrefixOf s.data

/-- JS `String.prototype.slice` from a character index. -/
def strDrop (s : String) (n : Nat) : String :=
  String.mk (s.data.drop n)

/-- The closed list of built-in keywords (source lines 46-86). -/
def builtInKeywords : List String :=
  ["-get-dynamic-var", "-in-element", "-with-dynamic-vars", "action", "array",
   "component", "concat", "debugger", "each-in", "each", "fn", "get",
   "has-block-params", "has-block", "hasBlock", "hasBlockParams", "hash",
   "helper", "if", "in-element", "input", "let", "link-to", "loc", "log",
   "modifier", "mount", "mut", "on", "outlet", "partial", "query-params",
   "readonly", "textarea", "unbound", "unique-id", "unless", "with", "yield"]

/-- `ComponentResolution` (source lines 88-95). -/
structure ComponentResolution where
  specifier : String
  yieldsComponents : List YCEntry
  yieldsArguments : List YAEntry
  argumentsAreComponents : List String
  nameHint : String
deriving DecidableEq, Repr

/-- `HelperResolution` (source lines 97-101). -/
structure HelperResolution where
  specifier : String
  nameHint : String
deriving DecidableEq, Repr

/-- `ModifierResolution` (source lines 103-107). -/
structure ModifierResolution where
  specifier : String
  nameHint : String
deriving DecidableEq, Repr

/-- `ResolutionFail` (source lines 111-116). -/
structure ResolutionFail where
  message : String
  detail : String
  loc : Loc
deriving DecidableEq, Repr

/-- `Resolution = ResolutionResult | ResolutionFail` (source line 118). -/
inductive Resolution where
  | component (c : ComponentResolution)
  | helper (h : HelperResolution)
  | modifier (m : ModifierResolution)
  | error (e : ResolutionFail)
deriving DecidableEq, Repr

/-- `ComponentLocator` (source lines 120-131). -/
inductive ComponentLocator where
  | literal (path : String)
  | path (path : String)
  | other
deriving DecidableEq, Repr

/-- The context argument of `handleComponentHelper` naming the component
and argument an `argumentsAreComponents` fact was propagated from. -/
structure ImpliedBecause where
  componentName : String
  argumentName : String
deriving DecidableEq, Repr

/-- What `reportError` (source lines 170-187) does with a failure:
throw a terminal error, append an audit message, or silently drop it. -/
structure AuditMessage where
  message : String
  filename : String
  detail : String
  loc : Loc
  source : String
deriving DecidableEq, Repr

inductive ReportOutcome where
  | thrown (message : String) (loc : Loc) (moduleName : String)
  | collected (msg : AuditMessage)
  | dropped
deriving DecidableEq, Repr

/-- `humanReadableFile` (source lines 189-198). -/
def humanReadableFile (r : Resolver) (file : String) : String :=
  let appRoot := if strEndsWithChar r.appRoot '/' then r.appRoot else r.appRoot ++ "/"
  if strHasPrefix appRoot file then strDrop file appRoot.length else file

/-- `reportError` (source lines 170-187): with no audit handler and
`allowUnsafeDynamicComponents` unset, throw a terminal, tagged error;
with an audit handler, collect; otherwise fall through and drop. -/
def reportError (r : Resolver) (dep : ResolutionFail) : ReportOutcome :=
  if r.auditHandler = false ∧ r.config.allowUnsafeDynamicComponents = false then
    .thrown (dep.message ++ ": " ++ dep.detail ++ " in " ++ humanReadableFile r r.filename)
      dep.loc r.filename
  else if r.auditHandler then
    .collected ⟨dep.message, r.filename, dep.detail, dep.loc, r.contents⟩
  else
    .dropped

/-- `staticComponentsEnabled` (source lines 276-278). -/
def staticComponentsEnabled (r : Resolver) : Bool :=
  r.config.staticComponents || r.auditHandler

/-- `staticHelpersEnabled` (source lines 280-282). -/
def staticHelpersEnabled (r : Resolver) : Bool :=
  r.config.staticHelpers || r.auditHandler

/-- `staticModifiersEnabled` (source lines 284-286). -/
def staticModifiersEnabled (r : Resolver) : Bool :=
  r.config.staticModifiers || r.auditHandler

/-- `isIgnoredComponent` (source lines 288-290). -/
def isIgnoredComponent (r : Resolver) (dasherizedName : String) : Bool :=
  match assocLookup r.rules.components dasherizedName with
  | some rule => rule.safeToIgnore
  | none => false

/-- `findRules` (source lines 329-336). -/
def findRules (r : Resolver) (absPath : String) : Option PreprocessedComponentRule :=
  assocLookup r.rules.files absPath

/-- `nameHint` (source lines 595-601): last `@`-separated part plus an
underscore that can never collide with an HTML element name. -/
def nameHint (path : String) : String :=
  (splitOnChar '@' path).getLastD "" ++ "_"

/-- `capitalize` (source lines 973-975). -/
def capitalize (word : String) : String :=
  match word.toList with
  | [] => ""
  | c :: rest => String.mk (c.toUpper :: rest)

/-- Modelled from the spec: the resolver imports lodash's `camelCase`
(an external library function, not part of this repository) only to
render a suggested `<PascalCase />` spelling inside two error-message
strings. For the dash-separated names the resolver feeds it, lodash
camel-cases by joining the dash-separated words, capitalizing every word
after the first. No theorem below depends on its exact output. -/
def camelCase (s : String) : String :=
  match splitOnChar '-' s with
  | [] => ""
  | w :: ws => w ++ String.join (ws.map capitalize)

/-- `targetComponent` (source lines 346-367). -/
def targetComponent (r : Resolver) (name : String) : Option ComponentResolution :=
  if !staticComponentsEnabled r then none
  else if name ∈ builtInKeywords then none
  else if isIgnoredComponent r name then none
  else
    let componentRules := assocLookup r.rules.components name
    some
      { specifier := "#embroider_compat/components/" ++ name
        yieldsComponents := match componentRules with
          | some cr => cr.yieldsSafeComponents
          | none => []
        yieldsArguments := match componentRules with
          | some cr => cr.yieldsArguments
          | none => []
        argumentsAreComponents := match componentRules with
          | some cr => cr.argumentsAreComponents
          | none => []
        nameHint := nameHint name }

/-- `targetHelper` (source lines 409-427). -/
def targetHelper (r : Resolver) (path : String) : Option HelperResolution :=
  if !staticHelpersEnabled r then none
  else if path ∈ builtInKeywords then none
  else some { specifier := "#embroider_compat/helpers/" ++ path, nameHint := nameHint path }

/-- `targetElementModifier` (source lines 548-561). -/
def targetElementModifier (r : Resolver) (path : String) : Option ModifierResolution :=
  if !staticModifiersEnabled r then none
  else if path ∈ builtInKeywords then none
  else some { specifier := "#embroider_compat/modifiers/" ++ path, nameHint := nameHint path }

/-- The error reported for an ambiguous no-argument bare mustache
(source lines 511-518). -/
def ambiguitySyntaxError (path : String) (loc : Loc) : ResolutionFail :=
  { message := "unsupported ambiguous syntax"
    detail := "\"\x7b\x7b" ++ path ++ "\x7d\x7d\" is ambiguous and could mean \"\x7b\x7bthis."
      ++ path ++ "\x7d\x7d\" or component \"<" ++ capitalize (camelCase path)
      ++ " />\" or helper \"\x7b\x7b (" ++ path
      ++ ") \x7d\x7d\". Change it to one of those unambigous forms, or use a \"disambiguate\" packageRule to work around the problem if its in third-party code you cannot easily fix."
    loc := loc }

/-- The error reported for an ambiguous with-arguments mustache when the
`staticHelpers`/`staticComponents` toggles disagree (source lines 526-533). -/
def ambiguityToggleError (path : String) (loc : Loc) : ResolutionFail :=
  { message := "unsupported ambiguity between helper and component"
    detail := "this use of \"\x7b\x7b" ++ path ++ "\x7d\x7d\" could be helper \"\x7b\x7b ("
      ++ path ++ ") \x7d\x7d\" or component \"<" ++ capitalize (camelCase path)
      ++ " />\", and your settings for staticHelpers and staticComponents do not agree. Either switch to one of the unambiguous forms, or make staticHelpers and staticComponents agree, or use a \"disambiguate\" packageRule to work around the problem if its in third-party code you cannot easily fix."
    loc := loc }

/-- `targetHelperOrComponent` (source lines 429-546). The second
component of the result collects the failures the method hands to
`this.reportError` (it reports and then returns `null` rather than
returning the failure). -/
def targetHelperOrComponent (r : Resolver) (path : String) (loc : Loc) (hasArgs : Bool) :
    Option Resolution × List ResolutionFail :=
  if (!staticHelpersEnabled r && !staticComponentsEnabled r)
      || path ∈ builtInKeywords || isIgnoredComponent r path then
    (none, [])
  else
    match (findRules r r.filename).bind fun tr => assocLookup tr.disambiguate path with
    | some .component => ((targetComponent r path).map .component, [])
    | some .helper => ((targetHelper r path).map .helper, [])
    | some .data => (none, [])
    | none =>
      if !hasArgs && !strContains path '/' && !strContains path '@' then
        (none, [ambiguitySyntaxError path loc])
      else if !staticHelpersEnabled r || !staticComponentsEnabled r then
        (none, [ambiguityToggleError path loc])
      else
        let componentRules := assocLookup r.rules.components path
        (some (.component
          { specifier := "#embroider_compat/ambiguous/" ++ path
            yieldsComponents := match componentRules with
              | some cr => cr.yieldsSafeComponents
              | none => []
            yieldsArguments := match componentRules with
              | some cr => cr.yieldsArguments
              | none => []
            argumentsAreComponents := match componentRules with
              | some cr => cr.argumentsAreComponents
              | none => []
            nameHint := nameHint path }), [])

/-- The message of an unsafe-dynamic failure (source lines 378-383):
when the resolution arose from an `argumentsAreComponents` fact it names
the originating component and argument, otherwise it is the bare
unsafe-dynamic-component message. -/
def implMessage (impliedBecause : Option ImpliedBecause) : String :=
  match impliedBecause with
  | some ib => "argument \"" ++ ib.argumentName ++ "\" to component \"" ++ ib.componentName
      ++ "\" is treated as a component, but the value you're passing is dynamic"
  | none => "Unsafe dynamic component"

/-- `targetComponentHelper` (source lines 369-407). -/
def targetComponentHelper (r : Resolver) (component : ComponentLocator) (loc : Loc)
    (impliedBecause : Option ImpliedBecause) : Option Resolution :=
  if !staticComponentsEnabled r then none
  else
    let message := implMessage impliedBecause
    match component with
    | .other => some (.error ⟨message, "cannot statically analyze this expression", loc⟩)
    | .path p =>
      let ownComponentRules := findRules r r.filename
      if (match ownComponentRules with
          | some tr => tr.safeInteriorPaths.contains p
          | none => false) then none
      else some (.error ⟨message, p, loc⟩)
    | .literal p => (targetComponent r p).map .component

/-- `targetDynamicHelper` (source lines 580-593). -/
def targetDynamicHelper (r : Resolver) (helper : ComponentLocator) : Option HelperResolution :=
  if !staticHelpersEnabled r then none
  else match helper with
    | .literal p => targetHelper r p
    | _ => none

/-- `targetDynamicModifier` (source lines 563-578). -/
def targetDynamicModifier (r : Resolver) (modifier : ComponentLocator) (loc : Loc) :
    Option Resolution :=
  if !staticModifiersEnabled r then none
  else match modifier with
    | .literal p => (targetElementModifier r p).map .modifier
    | _ => some (.error ⟨"Unsafe dynamic modifier", "cannot statically analyze this expression", loc⟩)

/-! ## Scope stack (source lines 854-952) -/

/-- `ComponentBlockMarker` (source lines 854-859), minus the `exit`
callback: firing the callback is modeled where it happens, in the walk's
`popFire`, so that stack entries stay first-order data. -/
structure ComponentBlockMarker where
  resolution : ComponentResolution
  argumentsAreComponents : List String
deriving DecidableEq, Repr

/-- `ScopeEntry` (source line 861). The innermost frame is the head of
the list (the source `unshift`s onto index 0). -/
inductive ScopeEntry where
  | blockParams (blockParams : List String)
  | marker (m : ComponentBlockMarker)
deriving DecidableEq, Repr

/-- `ScopeStack.inScope` (source lines 895-902). -/
def inScope (name : String) : List ScopeEntry → Bool
  | [] => false
  | ScopeEntry.blockParams bps :: rest => bps.contains name || inScope name rest
  | ScopeEntry.marker _ :: rest => inScope name rest

/-- Append a discovered source-argument name to a marker's live
`argumentsAreComponents` array (the `push` on source lines 927 and 940). -/
def pushArg (m : ComponentBlockMarker) (arg : String) : ComponentBlockMarker :=
  { m with argumentsAreComponents := m.argumentsAreComponents ++ [arg] }

/-- The body of `safeComponentInScope`'s matched-pair branch (source
lines 921-947): given the second path segment (if any), the positional
index of the root segment in the parameter frame, and the adjacent
marker, decide safety and return the possibly-updated marker. -/
def pairCheck (part1 : Option String) (idx : Nat) (m : ComponentBlockMarker) :
    Bool × ComponentBlockMarker :=
  match part1 with
  | none =>
    if m.resolution.yieldsComponents.get? idx = some (YCEntry.b true) then (true, m)
    else
      match m.resolution.yieldsArguments.get? idx with
      | some (YAEntry.s arg) => (true, pushArg m arg)
      | _ => (false, m)
  | some f =>
    match m.resolution.yieldsComponents.get? idx with
    | some (YCEntry.m fields) =>
      (match assocLookup fields f with | some true => true | _ => false, m)
    | _ =>
      match m.resolution.yieldsArguments.get? idx with
      | some (YAEntry.m fields) =>
        match assocLookup fields f with
        | some arg => (true, pushArg m arg)
        | none => (false, m)
      | _ => (false, m)

/-- The scan of `safeComponentInScope` (source lines 912-949): walk
adjacent frame pairs from the innermost outward; at the first
(parameter-frame, marker) pair that binds the root segment, decide via
`pairCheck` and stop (the source `return`s whether the check succeeds or
fails); otherwise keep scanning. The returned stack reflects the
marker mutation performed by a successful `yieldsArguments` hit. -/
def safeScan (part0 : String) (part1 : Option String) :
    List ScopeEntry → Bool × List ScopeEntry
  | [] => (false, [])
  | ScopeEntry.blockParams bps :: ScopeEntry.marker m :: rest =>
    (match findIndex part0 bps with
     | some idx =>
       let r := pairCheck part1 idx m
       (r.1, ScopeEntry.blockParams bps :: ScopeEntry.marker r.2 :: rest)
     | none =>
       let r := safeScan part0 part1 (ScopeEntry.marker m :: rest)
       (r.1, ScopeEntry.blockParams bps :: r.2))
  | e :: rest =>
    let r := safeScan part0 part1 rest
    (r.1, e :: r.2)

/-- `ScopeStack.safeComponentInScope` (source lines 904-951): dotted
paths deeper than two segments are never safe; otherwise scan. -/
def safeComponentInScope (name : String) (stack : List ScopeEntry) :
    Bool × List ScopeEntry :=
  let parts := splitOnChar '.' name
  if parts.length > 2 then (false, stack)
  else safeScan (parts.headD "") (parts.get? 1) stack

/-! ## Expressions and the component-helper argument classifier -/

/-- A path expression callee (`ASTv1.PathExpression`): its printed
`original`, its dot-split `parts`, and the `this`/`data` flags. -/
structure PathExpr where
  original : String
  parts : List String
  isThis : Bool := false
  isData : Bool := false
  loc : Loc := {}
deriving DecidableEq, Repr

/-- The expression shapes `handleComponentHelper` (source lines 200-245)
distinguishes. `mustache` keeps only its sub-path and the argument
counts the classifier inspects; every node kind hitting the source's
`default` branch is `other`. -/
inductive Expr where
  | stringLiteral (value : String) (loc : Loc)
  | pathExpression (p : PathExpr)
  | mustache (path : Expr) (nParams nHash : Nat) (loc : Loc)
  | textNode (chars : String) (loc : Loc)
  | subExpression (path : Expr) (loc : Loc)
  | other (loc : Loc)
deriving DecidableEq, Repr

/-- Does an inner callee match `param.path.type === 'PathExpression' &&
param.path.original === name`? -/
def pathOriginalIs (e : Expr) (name : String) : Bool :=
  match e with
  | .pathExpression p => p.original = name
  | _ => false

/-- The tail of `handleComponentHelper` after the locator is classified
(source lines 240-244): a bare path consults `safeComponentInScope`
first (mutating the stack), every other locator goes straight to
`targetComponentHelper`. -/
def afterLocator (r : Resolver) (stack : List ScopeEntry) (locator : ComponentLocator)
    (loc : Loc) (impliedBecause : Option ImpliedBecause) :
    Option Resolution × List ScopeEntry :=
  match locator with
  | .path p =>
    let res := safeComponentInScope p stack
    if res.1 then (none, res.2)
    else (targetComponentHelper r (.path p) loc impliedBecause, res.2)
  | _ => (targetComponentHelper r locator loc impliedBecause, stack)

/-- `handleComponentHelper` (source lines 200-245). -/
def handleComponentHelper (r : Resolver) (stack : List ScopeEntry) (param : Expr)
    (impliedBecause : Option ImpliedBecause) : Option Resolution × List ScopeEntry :=
  match param with
  | .stringLiteral v loc => afterLocator r stack (.literal v) loc impliedBecause
  | .pathExpression p => afterLocator r stack (.path p.original) p.loc impliedBecause
  | .mustache inner nParams nHash loc =>
    if nHash = 0 ∧ nParams = 0 then handleComponentHelper r stack inner impliedBecause
    else if pathOriginalIs inner "component" then (none, stack)
    else afterLocator r stack .other loc impliedBecause
  | .textNode chars loc => afterLocator r stack (.literal chars) loc impliedBecause
  | .subExpression inner loc =>
    if pathOriginalIs inner "component" then (none, stack)
    else if pathOriginalIs inner "ensure-safe-component" then (none, stack)
    else afterLocator r stack .other loc impliedBecause
  | .other loc => afterLocator r stack .other loc impliedBecause

/-- `handleDynamicHelper` (source lines 613-622). -/
def handleDynamicHelper (r : Resolver) (param : Expr) : Option HelperResolution :=
  match param with
  | .stringLiteral v _ => targetDynamicHelper r (.literal v)
  | _ => none

/-- `handleDynamicModifier` (source lines 603-611). -/
def handleDynamicModifier (r : Resolver) (param : Expr) : Option Resolution :=
  match param with
  | .stringLiteral v loc => targetDynamicModifier r (.literal v) loc
  | _ => none

/-- An attribute-like call-site argument: an element `AttrNode` or a
curly `HashPair` (the two shapes `handleDynamicComponentArguments`
searches, source lines 252-259). -/
inductive AttrLike where
  | attrNode (name : String) (value : Expr)
  | hashPair (key : String) (value : Expr)
deriving DecidableEq, Repr

/-- The match predicate of `handleDynamicComponentArguments`'s `find`:
an `AttrNode` named `@name`, or a `HashPair` keyed `name`. -/
def attrMatches (name : String) (attr : AttrLike) : Bool :=
  match attr with
  | .attrNode n _ => n = "@" ++ name
  | .hashPair k _ => k = name

def attrValue : AttrLike → Expr
  | .attrNode _ v => v
  | .hashPair _ v => v

/-- The failures `emit` (source lines 145-168) forwards to
`reportError`: exactly the error-typed resolutions. -/
def emitErrors (res : Option Resolution) : List ResolutionFail :=
  match res with
  | some (.error e) => [e]
  | _ => []

/-- `handleDynamicComponentArguments` (source lines 247-274): for each
name under `argumentsAreComponents`, resolve the matching argument's
value as a component, reporting error resolutions and threading the
scope stack through the `safeComponentInScope` mutations. -/
def handleDynamicComponentArguments (r : Resolver) (stack : List ScopeEntry)
    (componentName : String) (argumentsAreComponents : List String)
    (attributes : List AttrLike) : List ResolutionFail × List ScopeEntry :=
  match argumentsAreComponents with
  | [] => ([], stack)
  | name :: restNames =>
    match attributes.find? (attrMatches name) with
    | some attr =>
      let res := handleComponentHelper r stack (attrValue attr)
        (some ⟨componentName, name⟩)
      let restRes := handleDynamicComponentArguments r res.2 componentName restNames attributes
      (emitErrors res.1 ++ restRes.1, restRes.2)
    | none => handleDynamicComponentArguments r stack componentName restNames attributes

/-! ## The MustacheStatement visitor -/

/-- A `MustacheStatement` node as the visitor reads it: callee
expression, positional params, hash pairs. -/
structure MustacheStatementNode where
  path : Expr
  params : List Expr := []
  hash : List (String × Expr) := []
deriving DecidableEq, Repr

/-- The visitor's outcome for one node: the resolution handed to `emit`
for the node itself, every failure handed to `reportError` (by
`targetHelperOrComponent` internally or by `emit` on error resolutions,
in report order), and the scope stack afterwards. -/
structure HandlerResult where
  resolution : Option Resolution
  reported : List ResolutionFail
  stack : List ScopeEntry
deriving DecidableEq, Repr

/-- The `MustacheStatement` enter visitor (source lines 714-776). The
`parentIsAttr` flag is `path.parent?.node.type === 'AttrNode'`. -/
def mustacheEnter (r : Resolver) (stack : List ScopeEntry) (node : MustacheStatementNode)
    (parentIsAttr : Bool) : HandlerResult :=
  match node.path with
  | .pathExpression p =>
    if inScope (p.parts.headD "") stack then ⟨none, [], stack⟩
    else if p.isThis then ⟨none, [], stack⟩
    else if p.parts.length > 1 then ⟨none, [], stack⟩
    else if strStartsWithChar p.original '@' then ⟨none, [], stack⟩
    else if p.original = "component" ∧ node.params ≠ [] then
      let res := handleComponentHelper r stack (node.params.headD (.other {})) none
      ⟨res.1, emitErrors res.1, res.2⟩
    else if p.original = "helper" ∧ node.params ≠ [] then
      ⟨(handleDynamicHelper r (node.params.headD (.other {}))).map .helper, [], stack⟩
    else if parentIsAttr then
      ⟨(targetHelper r p.original).map .helper, [], stack⟩
    else
      let hasArgs := node.params ≠ [] ∨ node.hash ≠ []
      let thc := targetHelperOrComponent r p.original p.loc hasArgs
      match thc.1 with
      | some (.component c) =>
        let args := handleDynamicComponentArguments r stack p.original
          c.argumentsAreComponents (node.hash.map fun pr => .hashPair pr.1 pr.2)
        ⟨thc.1, thc.2 ++ args.1, args.2⟩
      | _ => ⟨thc.1, thc.2 ++ emitErrors thc.1, stack⟩
  | _ => ⟨none, [], stack⟩

/-! ## The walk: BlockStatement / ElementNode scope discipline -/

/-- Drop the leading dashes a camel-case word conversion produces. -/
def strDropWhileDash (s : String) : String :=
  String.mk (s.data.dropWhile (· = '-'))

/-- Modelled from the spec: `dasherize` lives in
`dasherize-component-name.ts`, outside the vendored sources. Per §4.1
it converts a component class name to "a canonical dash-separated
name"; nested names separated by `::` become path segments. The
invariant theorems below hold for every output of this function, so
nothing rests on its exact behavior. -/
def dasherizeWord (w : String) : String :=
  String.join (w.toList.map fun c =>
    if c.isUpper then "-" ++ String.mk [c.toLower] else String.mk [c])

def dasherize (className : String) : String :=
  String.intercalate "/" (((splitOnChar ':' className).filter (· ≠ "")).map fun seg =>
    strDropWhileDash (dasherizeWord seg))

/-- `node.tag[0] !== node.tag[0].toLowerCase()` (source line 812). -/
def tagLeadingUpper (tag : String) : Bool :=
  match tag.toList with
  | [] => false
  | c :: _ => c ≠ c.toLower

/-- The template-tree fragment whose traversal drives the scope stack:
elements and block statements (both may introduce block parameters and
a component block marker), mustache statements (which may mutate marker
state through `safeComponentInScope`), and inert text. Callee paths
are `PathExpr`s; a block whose callee is not a `PathExpression` returns
from the handler before any resolution and behaves like `resolution =
none` here. -/
inductive TNode where
  | textN : TNode
  | mustacheN : MustacheStatementNode → Bool → TNode
  | element : String → List String → List (String × Expr) → List TNode → TNode
  | blockStmt : PathExpr → List Expr → List (String × Expr) → List String → List TNode → TNode

/-- The resolution part of the `BlockStatement` visitor (source lines
639-667), before the marker push: the scope/`this`/dotted checks, the
`{{component ...}}` delegation (which resolves but never marks), then
`targetComponent`. Returns the component resolution that will mark the
block, if any, plus the possibly-mutated stack. -/
def blockEnterRes (r : Resolver) (stack : List ScopeEntry) (p : PathExpr)
    (params : List Expr) : Option ComponentResolution × List ScopeEntry :=
  if inScope (p.parts.headD "") stack then (none, stack)
  else if p.isThis then (none, stack)
  else if p.parts.length > 1 then (none, stack)
  else if p.original = "component" ∧ params ≠ [] then
    let res := handleComponentHelper r stack (params.headD (.other {})) none
    (none, res.2)
  else (targetComponent r p.original, stack)

/-- `ScopeStack.pop` (source lines 874-881) fused with the marker's exit
callback: remove the parameter frame; if a marker follows, run
`handleDynamicComponentArguments` — with the marker still on the stack,
exactly as the source does (`next.exit(next)` runs before the second
`shift()`) — and then remove the marker. Returns the final stack and
the stack state the exit callback observed (if any). -/
def popFire (r : Resolver) (componentName : String) (attrs : List AttrLike)
    (stack : List ScopeEntry) : List ScopeEntry × List (List ScopeEntry) :=
  match stack with
  | [] => ([], [])
  | _ :: ScopeEntry.marker m :: rest =>
    let observed := ScopeEntry.marker m :: rest
    let args := handleDynamicComponentArguments r observed componentName
      m.argumentsAreComponents attrs
    (args.2.drop 1, [observed])
  | _ :: rest => (rest, [])

/-- The trace of one walk: the final stack, the stack as observed at
the start of each node's handling, and the stack as observed by each
fired marker exit callback. -/
structure WalkOut where
  stack : List ScopeEntry
  entrySt : List (List ScopeEntry)
  exitSt : List (List ScopeEntry)
deriving DecidableEq, Repr

mutual

/-- The traversal (source visitor, lines 624-831) restricted to its
scope-stack effects: `ElementNode` enter pushes a marker when the tag
resolves to a component and always pushes the tag's block parameters;
`BlockStatement` pushes a marker when its callee resolves to a
component and the block's body pushes its block parameters; both pop
(firing the marker exit) afterwards; mustaches run their full enter
handler. -/
def walkNode (r : Resolver) : TNode → List ScopeEntry → WalkOut
  | .textN, s => ⟨s, [s], []⟩
  | .mustacheN node parentIsAttr, s =>
    ⟨(mustacheEnter r s node parentIsAttr).stack, [s], []⟩
  | .element tag blockParams attrs children, s =>
    let res : Option ComponentResolution :=
      if !inScope ((splitOnChar '.' tag).headD "") s ∧ tagLeadingUpper tag then
        targetComponent r (dasherize tag)
      else none
    let s1 := match res with
      | some c => ScopeEntry.marker ⟨c, c.argumentsAreComponents⟩ :: s
      | none => s
    let s2 := ScopeEntry.blockParams blockParams :: s1
    let out := walkList r children s2
    let p := popFire r tag (attrs.map fun a => AttrLike.attrNode a.1 a.2) out.stack
    ⟨p.1, s :: out.entrySt, out.exitSt ++ p.2⟩
  | .blockStmt path params hash blockParams children, s =>
    let res := blockEnterRes r s path params
    let s1 := match res.1 with
      | some c => ScopeEntry.marker ⟨c, c.argumentsAreComponents⟩ :: res.2
      | none => res.2
    let s2 := ScopeEntry.blockParams blockParams :: s1
    let out := walkList r children s2
    let p := popFire r (path.parts.headD "") (hash.map fun pr => AttrLike.hashPair pr.1 pr.2)
      out.stack
    ⟨p.1, s :: out.entrySt, out.exitSt ++ p.2⟩

def walkList (r : Resolver) : List TNode → List ScopeEntry → WalkOut
  | [], s => ⟨s, [], []⟩
  | t :: ts, s =>
    let o1 := walkNode r t s
    let o2 := walkList r ts o1.stack
    ⟨o2.stack, o1.entrySt ++ o2.entrySt, o1.exitSt ++ o2.exitSt⟩

end

/-! ## Marker placement invariant -/

/-- The constructor tag of a scope entry: `true` for markers. -/
def entTag : ScopeEntry → Bool
  | ScopeEntry.marker _ => true
  | ScopeEntry.blockParams _ => false

/-- The skeleton of a stack: its entries' constructor tags, innermost
first. Scope queries may mutate marker contents but never the skeleton. -/
def shape (s : List ScopeEntry) : List Bool := s.map entTag

/-- The spec §3 invariant: every `ComponentBlockMarker` in the stack
sits at index `i+1` relative to a `BlockParameterFrame` at index `i`
(the stack is innermost-first, so the annotated frame is the entry
pushed directly on top of the marker). -/
def MarkerWellPlaced (s : List ScopeEntry) : Prop :=
  ∀ j m, s[j]? = some (ScopeEntry.marker m) →
    1 ≤ j ∧ ∃ bps, s[j-1]? = some (ScopeEntry.blockParams bps)

/-- Placement up to one dangling marker at the top of the stack: the
state a marker's exit callback observes, after `pop` has removed the
marker's parameter frame but before it removes the marker itself. -/
def RelaxedPlaced (s : List ScopeEntry) : Prop :=
  match s with
  | ScopeEntry.marker _ :: rest => MarkerWellPlaced rest
  | _ => MarkerWellPlaced s

/-- Does the innermost-first scan of `safeComponentInScope` find, inside
this prefix of the stack, an adjacent (parameter frame, marker) pair
whose frame binds `root`? Mirrors the pair traversal of `safeScan`. -/
def hasMatchingPair (root : String) : List ScopeEntry → Bool
  | ScopeEntry.blockParams bps :: ScopeEntry.marker m :: rest =>
    (findIndex root bps).isSome || hasMatchingPair root (ScopeEntry.marker m :: rest)
  | _ :: rest => hasMatchingPair root rest
  | [] => false

/-! Concrete fixtures used by witnesses and counterexamples. -/

/-- A resolver with only `staticComponents` enabled and no rules. -/
def rComp : Resolver := { config := { staticComponents := true } }

/-- A resolver with only `staticHelpers` enabled and no rules. -/
def rHelp : Resolver := { config := { staticHelpers := true } }

/-- A resolver with both ambiguity-relevant toggles enabled. -/
def rBoth : Resolver := { config := { staticComponents := true, staticHelpers := true } }

/-- A resolver constructed while a global audit collector is
registered, with every configuration toggle left off. -/
def rAudit : Resolver := { auditHandler := true }

/-- A strict-mode resolver that tolerates unsafe dynamic components. -/
def rUnsafe : Resolver := { config := { allowUnsafeDynamicComponents := true } }

/-- The callee of a bare curly `hello-world` mustache. -/
def pHelloWorld : PathExpr := { original := "hello-world", parts := ["hello-world"] }

/-- A placeholder failure for `headD`. -/
def dummyFail : ResolutionFail := { message := "", detail := "", loc := {} }

/-- A marker whose rule both marks position 0 as yielding a safe
component (boolean `true`) and as forwarding, through field `f`, the
source argument `arg` - the shape that distinguishes the two
second-level lookup routes of `safeComponentInScope`. -/
def mBoolAndMap : ComponentBlockMarker :=
  { resolution :=
      { specifier := "#embroider_compat/components/widget"
        yieldsComponents := [YCEntry.b true]
        yieldsArguments := [YAEntry.m [("f", "arg")]]
        argumentsAreComponents := []
        nameHint := "widget_" }
    argumentsAreComponents := [] }

/-- A marker whose rule marks yielded position 0 as a safe component. -/
def mSafeYield : ComponentBlockMarker :=
  { resolution :=
      { specifier := "#embroider_compat/components/widget"
        yieldsComponents := [YCEntry.b true]
        yieldsArguments := []
        argumentsAreComponents := []
        nameHint := "widget_" }
    argumentsAreComponents := [] }

/-- A resolver with `staticComponents` on and a component rule declaring
`argumentsAreComponents: ['title']` for the component `a-b`. -/
def rArgRule : Resolver :=
  { config := { staticComponents := true }
    rules := { components := [("a-b", { argumentsAreComponents := ["title"] })] } }

/-- A block statement invoking the component `a-b` with block parameter
`f` and the hash argument `title=foo`, `foo` being a bare path that the
component rule above marks as a component argument. -/
def treeArgBlock : TNode :=
  TNode.blockStmt { original := "a-b", parts := ["a-b"] } []
    [("title", Expr.pathExpression { original := "foo", parts := ["foo"] })] ["f"] []

/-- The marker the walk pushes for `treeArgBlock` under `rArgRule`. -/
def mArgBlock : ComponentBlockMarker :=
  { resolution :=
      { specifier := "#embroider_compat/components/a-b"
        yieldsComponents := []
        yieldsArguments := []
        argumentsAreComponents := ["title"]
        nameHint := "a-b_" }
    argumentsAreComponents := ["title"] }

/-- The conjunction the walk maintains at a node. -/
def NodeP (r : Resolver) (t : TNode) : Prop :=
  ∀ s, MarkerWellPlaced s →
    shape (walkNode r t s).stack = shape s ∧
    (∀ st ∈ (walkNode r t s).entrySt, MarkerWellPlaced st) ∧
    (∀ st ∈ (walkNode r t s).exitSt, RelaxedPlaced st)

/-- The conjunction the walk maintains along a child list. -/
def ListP (r : Resolver) (ts : List TNode) : Prop :=
  ∀ s, MarkerWellPlaced s →
    shape (walkList r ts s).stack = shape s ∧
    (∀ st ∈ (walkList r ts s).entrySt, MarkerWellPlaced st) ∧
    (∀ st ∈ (walkList r ts s).exitSt, RelaxedPlaced st)

theorem entTag_true_iff {e : ScopeEntry} : entTag e = true ↔ ∃ m, e = ScopeEntry.marker m := by
  cases e <;> simp [entTag]

theorem entTag_false_iff {e : ScopeEntry} :
    entTag e = false ↔ ∃ bps, e = ScopeEntry.blockParams bps := by
  cases e <;> simp [entTag]

theorem shape_cons_inv {l : List ScopeEntry} {b : Bool} {bs : List Bool}
    (h : shape l = b :: bs) : ∃ e l', l = e :: l' ∧ entTag e = b ∧ shape l' = bs := by
  cases l with
  | nil => simp [shape] at h
  | cons e l' =>
    simp only [shape, List.map_cons, List.cons.injEq] at h
    exact ⟨e, l', rfl, h.1, h.2⟩

theorem mwp_nil : MarkerWellPlaced [] := by
  intro j m h
  simp at h

theorem mwp_not_marker_head {m : ComponentBlockMarker} {rest : List ScopeEntry} :
    ¬ MarkerWellPlaced (ScopeEntry.marker m :: rest) := by
  intro h
  have := (h 0 m (by simp)).1
  omega

theorem mwp_of_shape_eq {s₁ s₂ : List ScopeEntry} (h : shape s₁ = shape s₂)
    (hm : MarkerWellPlaced s₁) : MarkerWellPlaced s₂ := by
  intro j m hj
  have htag : (shape s₂)[j]? = some true := by
    simp [shape, List.getElem?_map, hj, entTag]
  rw [← h] at htag
  simp only [shape, List.getElem?_map] at htag
  obtain ⟨e, he, hetag⟩ : ∃ e, s₁[j]? = some e ∧ entTag e = true := by
    cases h1 : s₁[j]? with
    | none => simp [h1] at htag
    | some e => exact ⟨e, rfl, by simpa [h1] using htag⟩
  obtain ⟨m₁, rfl⟩ := entTag_true_iff.mp hetag
  obtain ⟨hjge, bps, hbp⟩ := hm j m₁ he
  refine ⟨hjge, ?_⟩
  have htag₁ : (shape s₁)[j-1]? = some false := by
    simp [shape, List.getElem?_map, hbp, entTag]
  rw [h] at htag₁
  simp only [shape, List.getElem?_map] at htag₁
  cases h2 : s₂[j-1]? with
  | none => simp [h2] at htag₁
  | some e₂ =>
    have : entTag e₂ = false := by simpa [h2] using htag₁
    obtain ⟨bps₂, rfl⟩ := entTag_false_iff.mp this
    exact ⟨bps₂, rfl⟩

theorem mwp_cons_bp {bps : List String} {s : List ScopeEntry}
    (h : MarkerWellPlaced s) : MarkerWellPlaced (ScopeEntry.blockParams bps :: s) := by
  intro j m hj
  cases j with
  | zero => simp at hj
  | succ k =>
    simp only [List.getElem?_cons_succ] at hj
    obtain ⟨hk, bps', hbp⟩ := h k m hj
    cases k with
    | zero => omega
    | succ k' =>
      refine ⟨by omega, bps', ?_⟩
      simpa [Nat.succ_sub_one] using hbp

theorem mwp_cons_bp_marker {bps : List String} {mk : ComponentBlockMarker}
    {s : List ScopeEntry} (h : MarkerWellPlaced s) :
    MarkerWellPlaced (ScopeEntry.blockParams bps :: ScopeEntry.marker mk :: s) := by
  intro j m hj
  match j with
  | 0 => simp at hj
  | 1 => exact ⟨le_refl 1, bps, by simp⟩
  | Nat.succ (Nat.succ k) =>
    simp only [List.getElem?_cons_succ] at hj
    obtain ⟨hk, bps', hbp⟩ := h k m hj
    match k, hk with
    | Nat.succ k', _ =>
      refine ⟨by omega, bps', ?_⟩
      simpa using hbp

/-! ## Shape preservation of the scope-mutating operations -/

theorem shape_safeScan (p0 : String) (p1 : Option String) :
    ∀ s : List ScopeEntry, shape (safeScan p0 p1 s).2 = shape s := by
  intro s
  induction s with
  | nil => simp [safeScan]
  | cons a tail ih =>
    cases a with
    | marker m =>
      simp only [safeScan, shape, List.map_cons]
      simpa [shape] using ih
    | blockParams bps =>
      cases tail with
      | nil => simp [safeScan]
      | cons b rest =>
        cases b with
        | blockParams bps₂ =>
          simp only [safeScan, shape, List.map_cons]
          simpa [shape] using ih
        | marker m =>
          cases hfi : findIndex p0 bps with
          | some idx => simp [safeScan, hfi, shape, entTag]
          | none =>
            simp only [safeScan, hfi, shape, List.map_cons]
            simpa [safeScan, shape] using ih

theorem shape_safeComponentInScope (name : String) (s : List ScopeEntry) :
    shape (safeComponentInScope name s).2 = shape s := by
  simp only [safeComponentInScope]
  split
  · rfl
  · exact shape_safeScan _ _ s

theorem shape_afterLocator (r : Resolver) (s : List ScopeEntry) (locator : ComponentLocator)
    (loc : Loc) (imp : Option ImpliedBecause) :
    shape (afterLocator r s locator loc imp).2 = shape s := by
  cases locator with
  | path p =>
    simp only [afterLocator]
    split <;> exact shape_safeComponentInScope p s
  | literal p => rfl
  | other => rfl

theorem shape_handleComponentHelper (r : Resolver) (param : Expr) :
    ∀ (s : List ScopeEntry) (imp : Option ImpliedBecause),
      shape (handleComponentHelper r s param imp).2 = shape s := by
  induction param with
  | stringLiteral v loc => intro s imp; exact shape_afterLocator r s _ loc imp
  | pathExpression p => intro s imp; exact shape_afterLocator r s _ p.loc imp
  | mustache inner nParams nHash loc ih =>
    intro s imp
    simp only [handleComponentHelper]
    split
    · exact ih s imp
    · split
      · rfl
      · exact shape_afterLocator r s _ loc imp
  | textNode chars loc => intro s imp; exact shape_afterLocator r s _ loc imp
  | subExpression inner loc ih =>
    intro s imp
    simp only [handleComponentHelper]
    split
    · rfl
    · split
      · rfl
      · exact shape_afterLocator r s _ loc imp
  | other loc => intro s imp; exact shape_afterLocator r s _ loc imp

theorem shape_handleDynamicComponentArguments (r : Resolver) (componentName : String)
    (attrs : List AttrLike) :
    ∀ (names : List String) (s : List ScopeEntry),
      shape (handleDynamicComponentArguments r s componentName names attrs).2 = shape s := by
  intro names
  induction names with
  | nil => intro s; rfl
  | cons name rest ih =>
    intro s
    simp only [handleDynamicComponentArguments]
    cases attrs.find? (attrMatches name) with
    | some attr =>
      simp only
      rw [ih]
      exact shape_handleComponentHelper r (attrValue attr) s _
    | none => exact ih s

theorem shape_mustacheEnter (r : Resolver) (s : List ScopeEntry)
    (node : MustacheStatementNode) (parentIsAttr : Bool) :
    shape (mustacheEnter r s node parentIsAttr).stack = shape s := by
  cases hp : node.path with
  | pathExpression p =>
    simp only [mustacheEnter, hp]
    split
    · rfl
    split
    · rfl
    split
    · rfl
    split
    · rfl
    split
    · exact shape_handleComponentHelper r _ s none
    split
    · rfl
    split
    · rfl
    split
    · exact shape_handleDynamicComponentArguments r _ _ _ s
    · rfl
  | stringLiteral v loc => simp [mustacheEnter, hp]
  | mustache inner a b loc => simp [mustacheEnter, hp]
  | textNode chars loc => simp [mustacheEnter, hp]
  | subExpression inner loc => simp [mustacheEnter, hp]
  | other loc => simp [mustacheEnter, hp]

theorem shape_blockEnterRes (r : Resolver) (s : List ScopeEntry) (p : PathExpr)
    (params : List Expr) : shape (blockEnterRes r s p params).2 = shape s := by
  simp only [blockEnterRes]
  split
  · rfl
  split
  · rfl
  split
  · rfl
  split
  · exact shape_handleComponentHelper r _ s none
  · rfl

/-! ## The walk preserves marker placement (up to the documented
transient during exit callbacks) -/

theorem popFire_marker (r : Resolver) (n : String) (attrs : List AttrLike)
    {outStack s : List ScopeEntry} (hm : MarkerWellPlaced s)
    (hs : shape outStack = false :: true :: shape s) :
    shape (popFire r n attrs outStack).1 = shape s ∧
    ∀ st ∈ (popFire r n attrs outStack).2, RelaxedPlaced st := by
  obtain ⟨e0, l0, rfl, ht0, h0⟩ := shape_cons_inv hs
  obtain ⟨e1, l1, rfl, ht1, h1⟩ := shape_cons_inv h0
  obtain ⟨m1, rfl⟩ := entTag_true_iff.mp ht1
  simp only [popFire]
  refine ⟨?_, ?_⟩
  · have hsh := shape_handleDynamicComponentArguments r n attrs m1.argumentsAreComponents
      (ScopeEntry.marker m1 :: l1)
    have hsh' : shape ((handleDynamicComponentArguments r (ScopeEntry.marker m1 :: l1) n
        m1.argumentsAreComponents attrs).2) = true :: shape l1 := by
      rw [hsh]; simp [shape, entTag]
    obtain ⟨e2, l2, heq, ht2, h2⟩ := shape_cons_inv hsh'
    rw [heq]
    simpa using h2.trans h1
  · intro st hst
    simp only [List.mem_singleton] at hst
    subst hst
    exact mwp_of_shape_eq h1.symm hm

theorem popFire_nomarker (r : Resolver) (n : String) (attrs : List AttrLike)
    {outStack s : List ScopeEntry} (hm : MarkerWellPlaced s)
    (hs : shape outStack = false :: shape s) :
    shape (popFire r n attrs outStack).1 = shape s ∧ (popFire r n attrs outStack).2 = [] := by
  obtain ⟨e0, l0, rfl, ht0, h0⟩ := shape_cons_inv hs
  cases l0 with
  | nil =>
    refine ⟨?_, rfl⟩
    simpa [popFire] using h0
  | cons e1 l1 =>
    cases e1 with
    | blockParams bps =>
      refine ⟨?_, rfl⟩
      simpa [popFire] using h0
    | marker m1 =>
      exfalso
      have : shape s = true :: shape l1 := by
        rw [← h0]; simp [shape, entTag]
      obtain ⟨e, l, rfl, ht, _⟩ := shape_cons_inv this
      obtain ⟨mm, rfl⟩ := entTag_true_iff.mp ht
      exact mwp_not_marker_head hm

theorem listP_nil (r : Resolver) : ListP r [] := by
  intro s hm
  exact ⟨rfl, by simp [walkList], by simp [walkList]⟩

theorem listP_cons {r : Resolver} {t : TNode} {ts : List TNode}
    (h1 : NodeP r t) (h2 : ListP r ts) : ListP r (t :: ts) := by
  intro s hm
  obtain ⟨hsh1, hen1, hex1⟩ := h1 s hm
  have hm1 : MarkerWellPlaced (walkNode r t s).stack := mwp_of_shape_eq hsh1.symm hm
  obtain ⟨hsh2, hen2, hex2⟩ := h2 (walkNode r t s).stack hm1
  refine ⟨?_, ?_, ?_⟩
  · simpa [walkList] using hsh2.trans hsh1
  · intro st hst
    simp only [walkList, List.mem_append] at hst
    rcases hst with h | h
    · exact hen1 st h
    · exact hen2 st h
  · intro st hst
    simp only [walkList, List.mem_append] at hst
    rcases hst with h | h
    · exact hex1 st h
    · exact hex2 st h

theorem listP_of_members {r : Resolver} {ts : List TNode}
    (h : ∀ t ∈ ts, NodeP r t) : ListP r ts := by
  induction ts with
  | nil => exact listP_nil r
  | cons t ts ih =>
    exact listP_cons (h t (by simp)) (ih fun t' ht' => h t' (by simp [ht']))

theorem nodeP_text (r : Resolver) : NodeP r TNode.textN := by
  intro s hm
  exact ⟨rfl, by simp [walkNode, hm], by simp [walkNode]⟩

theorem nodeP_mustache (r : Resolver) (node : MustacheStatementNode) (pia : Bool) :
    NodeP r (TNode.mustacheN node pia) := by
  intro s hm
  refine ⟨?_, by simp [walkNode, hm], by simp [walkNode]⟩
  simpa [walkNode] using shape_mustacheEnter r s node pia

/-- The common body of the element and block cases: push an optional
marker and a parameter frame over a base stack of the entry shape, walk
the children, and pop (firing the exit callback when marked). -/
theorem pushWalkPop (r : Resolver) (name : String) (attrs : List AttrLike)
    (bps : List String) {children : List TNode} (hch : ListP r children)
    {s : List ScopeEntry} (base s1 : List ScopeEntry)
    (hbase : shape base = shape s) (hm : MarkerWellPlaced s)
    (hs1 : s1 = base ∨ ∃ mk, s1 = ScopeEntry.marker mk :: base) :
    shape (popFire r name attrs
      (walkList r children (ScopeEntry.blockParams bps :: s1)).stack).1 = shape s ∧
    (∀ st ∈ (walkList r children (ScopeEntry.blockParams bps :: s1)).entrySt,
      MarkerWellPlaced st) ∧
    (∀ st ∈ (walkList r children (ScopeEntry.blockParams bps :: s1)).exitSt,
      RelaxedPlaced st) ∧
    (∀ st ∈ (popFire r name attrs
      (walkList r children (ScopeEntry.blockParams bps :: s1)).stack).2,
      RelaxedPlaced st) := by
  have hmbase : MarkerWellPlaced base := mwp_of_shape_eq hbase.symm hm
  rcases hs1 with h | ⟨mk, h⟩ <;> subst h
  · have hm2 : MarkerWellPlaced (ScopeEntry.blockParams bps :: s1) := mwp_cons_bp hmbase
    obtain ⟨hsh, hen, hex⟩ := hch _ hm2
    have hout : shape (walkList r children (ScopeEntry.blockParams bps :: s1)).stack
        = false :: shape s := by
      rw [hsh]
      simp only [shape, List.map_cons, entTag] at hbase ⊢
      rw [hbase]
    obtain ⟨hfin, hemp⟩ := popFire_nomarker r name attrs hm hout
    exact ⟨hfin, hen, hex, by simp [hemp]⟩
  · have hm2 : MarkerWellPlaced
        (ScopeEntry.blockParams bps :: ScopeEntry.marker mk :: base) :=
      mwp_cons_bp_marker hmbase
    obtain ⟨hsh, hen, hex⟩ := hch _ hm2
    have hout : shape (walkList r children
        (ScopeEntry.blockParams bps :: ScopeEntry.marker mk :: base)).stack
        = false :: true :: shape s := by
      rw [hsh]
      simp only [shape, List.map_cons, entTag] at hbase ⊢
      rw [hbase]
    obtain ⟨hfin, hobs⟩ := popFire_marker r name attrs hm hout
    exact ⟨hfin, hen, hex, hobs⟩

theorem nodeP_element (r : Resolver) (tag : String) (bps : List String)
    (attrs : List (String × Expr)) (children : List TNode) (hch : ListP r children) :
    NodeP r (TNode.element tag bps attrs children) := by
  intro s hm
  have key := pushWalkPop r tag (attrs.map fun a => AttrLike.attrNode a.1 a.2) bps hch
    s (match (if !inScope ((splitOnChar '.' tag).headD "") s ∧ tagLeadingUpper tag
      then targetComponent r (dasherize tag) else none : Option ComponentResolution) with
      | some c => ScopeEntry.marker ⟨c, c.argumentsAreComponents⟩ :: s
      | none => s) rfl hm ?hs1
  case hs1 =>
    cases hres : (if !inScope ((splitOnChar '.' tag).headD "") s ∧ tagLeadingUpper tag
        then targetComponent r (dasherize tag) else none : Option ComponentResolution) with
    | none => exact Or.inl rfl
    | some c => exact Or.inr ⟨⟨c, c.argumentsAreComponents⟩, rfl⟩
  obtain ⟨hfin, hen, hex, hobs⟩ := key
  refine ⟨hfin, ?_, ?_⟩
  · intro st hst
    simp only [walkNode, List.mem_cons] at hst
    rcases hst with rfl | h
    · exact hm
    · exact hen st h
  · intro st hst
    simp only [walkNode, List.mem_append] at hst
    rcases hst with h | h
    · exact hex st h
    · exact hobs st h

theorem nodeP_block (r : Resolver) (p : PathExpr) (params : List Expr)
    (hash : List (String × Expr)) (bps : List String) (children : List TNode)
    (hch : ListP r children) : NodeP r (TNode.blockStmt p params hash bps children) := by
  intro s hm
  have hbase : shape (blockEnterRes r s p params).2 = shape s := shape_blockEnterRes r s p params
  have key := pushWalkPop r (p.parts.headD "") (hash.map fun pr => AttrLike.hashPair pr.1 pr.2)
    bps hch ((blockEnterRes r s p params).2)
    (match (blockEnterRes r s p params).1 with
      | some c => ScopeEntry.marker ⟨c, c.argumentsAreComponents⟩ :: (blockEnterRes r s p params).2
      | none => (blockEnterRes r s p params).2) hbase hm ?hs1
  case hs1 =>
    cases (blockEnterRes r s p params).1 with
    | none => exact Or.inl rfl
    | some c => exact Or.inr ⟨⟨c, c.argumentsAreComponents⟩, rfl⟩
  obtain ⟨hfin, hen, hex, hobs⟩ := key
  refine ⟨hfin, ?_, ?_⟩
  · intro st hst
    simp only [walkNode, List.mem_cons] at hst
    rcases hst with rfl | h
    · exact hm
    · exact hen st h
  · intro st hst
    simp only [walkNode, List.mem_append] at hst
    rcases hst with h | h
    · exact hex st h
    · exact hobs st h

theorem walk_nodeP_size (r : Resolver) :
    ∀ (n : Nat) (t : TNode), sizeOf t ≤ n → NodeP r t := by
  intro n
  induction n using Nat.strong_induction_on with
  | _ n ih =>
    intro t hsz
    cases t with
    | textN => exact nodeP_text r
    | mustacheN node pia => exact nodeP_mustache r node pia
    | element tag bps attrs children =>
      refine nodeP_element r tag bps attrs children (listP_of_members fun c hc => ?_)
      have h1 : sizeOf c < sizeOf children := List.sizeOf_lt_of_mem hc
      have h2 : sizeOf children < sizeOf (TNode.element tag bps attrs children) := by
        simp
      exact ih (sizeOf c) (by omega) c (le_refl _)
    | blockStmt p params hash bps children =>
      refine nodeP_block r p params hash bps children (listP_of_members fun c hc => ?_)
      have h1 : sizeOf c < sizeOf children := List.sizeOf_lt_of_mem hc
      have h2 : sizeOf children < sizeOf (TNode.blockStmt p params hash bps children) := by
        simp
      exact ih (sizeOf c) (by omega) c (le_refl _)

theorem walk_nodeP (r : Resolver) (t : TNode) : NodeP r t :=
  walk_nodeP_size r (sizeOf t) t (le_refl _)

/-! ## Claim proofs -/

/-- Shared: `targetHelperOrComponent` on a no-argument bare name (no
slash, no at-sign) that is not built-in, not ignored, and has no
disambiguate entry reports the no-args ambiguity error and resolves
nothing, as soon as at least one of the two toggles is (effectively)
enabled. -/
theorem thc_noargs (r : Resolver) (path : String) (loc : Loc)
    (hen : staticHelpersEnabled r = true ∨ staticComponentsEnabled r = true)
    (hb : path ∉ builtInKeywords)
    (hi : isIgnoredComponent r path = false)
    (hd : (findRules r r.filename).bind (fun tr => assocLookup tr.disambiguate path) = none)
    (hslash : strContains path '/' = false)
    (hat : strContains path '@' = false) :
    targetHelperOrComponent r path loc false = (none, [ambiguitySyntaxError path loc]) := by
  rcases hen with h | h <;>
    simp [targetHelperOrComponent, hd, hb, hi, hslash, hat, h]

/-- C4, amended: `reportError` routes a failure by configuration alone,
independent of the failure's class. With no audit collector and
`allowUnsafeDynamicComponents` unset it throws the terminal tagged
error; with a collector it collects; with no collector but
`allowUnsafeDynamicComponents` set it silently drops the failure —
whatever its class, not just the unsafe-dynamic one. -/
theorem C4_reportError_modes (r : Resolver) (dep : ResolutionFail) :
    (r.auditHandler = false → r.config.allowUnsafeDynamicComponents = false →
      reportError r dep = ReportOutcome.thrown
        (dep.message ++ ": " ++ dep.detail ++ " in " ++ humanReadableFile r r.filename)
        dep.loc r.filename) ∧
    (r.auditHandler = true →
      reportError r dep =
        ReportOutcome.collected ⟨dep.message, r.filename, dep.detail, dep.loc, r.contents⟩) ∧
    (r.auditHandler = false → r.config.allowUnsafeDynamicComponents = true →
      reportError r dep = ReportOutcome.dropped) := by
  exact ⟨fun h1 h2 => by simp [reportError, h1, h2],
    fun h1 => by simp [reportError, h1],
    fun h1 h2 => by simp [reportError, h1, h2]⟩

/-- C4, counterexample to the claim as stated: with
`allowUnsafeDynamicComponents: true` and no audit collector, a no-args
ambiguity error — not an unsafe-dynamic error — is silently dropped by
`reportError` (source line 171 gates the throw on the unrelated
`allowUnsafeDynamicComponents` flag for every error class). -/
theorem C4_counterexample :
    reportError rUnsafe (ambiguitySyntaxError "hello-world" {}) = ReportOutcome.dropped ∧
    (ambiguitySyntaxError "hello-world" {}).message = "unsupported ambiguous syntax" ∧
    rUnsafe.auditHandler = false := ⟨rfl, rfl, rfl⟩

/-- C4, witness: the amended theorem applied at a concrete resolver and
failure, exercising the drop branch. -/
theorem C4_witness :
    reportError rUnsafe (ambiguityToggleError "x" {}) = ReportOutcome.dropped :=
  (C4_reportError_modes rUnsafe (ambiguityToggleError "x" {})).2.2 rfl rfl

/-- C3, counterexample to the claim as stated: with `staticComponents`
off and `staticHelpers` on, the bare no-argument curly `hello-world`
does not resolve to "no resolution": the engine reports the no-args
ambiguity error (the error branch at source line 506 fires whenever at
least one of the two toggles is on, not only when the enabled toggles
disagree). -/
theorem C3_counterexample :
    rHelp.config.staticComponents = false ∧
    rHelp.config.staticHelpers = true ∧
    (targetHelperOrComponent rHelp "hello-world" {} false).1 = none ∧
    (targetHelperOrComponent rHelp "hello-world" {} false).2.length = 1 ∧
    ((targetHelperOrComponent rHelp "hello-world" {} false).2.headD dummyFail).message
      = "unsupported ambiguous syntax" := by
  refine ⟨rfl, rfl, ?_, ?_, ?_⟩ <;> decide

/-- C3, amended: with `staticComponents` disabled, `staticHelpers`
enabled and no audit collector, a non-dotted, non-local, argumentless
bare curly reference (no slash, no at-sign, not a built-in keyword, not
`safeToIgnore`, and with no `disambiguate` entry) never resolves to a
Helper or a Component — but it does not resolve to plain data either:
it reports the no-args ambiguity Error. -/
theorem C3_componentsOff_helpersOn (r : Resolver) (path : String) (loc : Loc)
    (haud : r.auditHandler = false)
    (hc : r.config.staticComponents = false)
    (hh : r.config.staticHelpers = true)
    (hb : path ∉ builtInKeywords)
    (hi : isIgnoredComponent r path = false)
    (hd : (findRules r r.filename).bind (fun tr => assocLookup tr.disambiguate path) = none)
    (hslash : strContains path '/' = false)
    (hat : strContains path '@' = false) :
    targetHelperOrComponent r path loc false = (none, [ambiguitySyntaxError path loc]) ∧
    (∀ hr, (targetHelperOrComponent r path loc false).1 ≠ some (Resolution.helper hr)) ∧
    (∀ c, (targetHelperOrComponent r path loc false).1 ≠ some (Resolution.component c)) ∧
    (targetHelperOrComponent r path loc false).2 ≠ [] := by
  have hen : staticHelpersEnabled r = true ∨ staticComponentsEnabled r = true :=
    Or.inl (by simp [staticHelpersEnabled, hh])
  have key := thc_noargs r path loc hen hb hi hd hslash hat
  refine ⟨key, ?_, ?_, ?_⟩ <;> simp [key]

/-- C3, witness: the amended theorem applied to the `staticHelpers`-only
resolver on the bare reference `hello-world`. -/
theorem C3_witness :
    targetHelperOrComponent rHelp "hello-world" {} false
      = (none, [ambiguitySyntaxError "hello-world" {}]) :=
  (C3_componentsOff_helpersOn rHelp "hello-world" {} rfl rfl rfl (by decide) (by decide)
    (by decide) (by decide) (by decide)).1

/-- C1: a top-level (non-attribute) curly call whose callee is a bare
name — single-segment, not in scope, not `this`-relative, not an
at-path, containing no slash and no at-sign — with no positional or
named arguments, processed while static resolution is enabled (at least
one of the component/helper toggles effective) and with no
`disambiguate` entry for the name (and the name neither a built-in
keyword nor `safeToIgnore`), makes the engine report the hard ambiguity
error, whose message says "unsupported ambiguous syntax" (mentioning
ambiguity), and resolve nothing: it never guesses a component, helper,
or data reading. -/
theorem C1_noargs_ambiguity_hard_error (r : Resolver) (s : List ScopeEntry)
    (p : PathExpr) (node : MustacheStatementNode)
    (hnode : node = { path := Expr.pathExpression p, params := [], hash := [] })
    (hscope : inScope (p.parts.headD "") s = false)
    (hthis : p.isThis = false)
    (hparts : p.parts.length ≤ 1)
    (hstart : strStartsWithChar p.original '@' = false)
    (hslash : strContains p.original '/' = false)
    (hat : strContains p.original '@' = false)
    (hen : staticHelpersEnabled r = true ∨ staticComponentsEnabled r = true)
    (hb : p.original ∉ builtInKeywords)
    (hi : isIgnoredComponent r p.original = false)
    (hd : (findRules r r.filename).bind (fun tr => assocLookup tr.disambiguate p.original)
      = none) :
    mustacheEnter r s node false
      = ⟨none, [ambiguitySyntaxError p.original p.loc], s⟩ ∧
    (ambiguitySyntaxError p.original p.loc).message = "unsupported ambiguous syntax" ∧
    (∃ before after, (ambiguitySyntaxError p.original p.loc).message
      = before ++ "ambiguous" ++ after) := by
  subst hnode
  refine ⟨?_, rfl, ⟨"unsupported ", " syntax", rfl⟩⟩
  have key := thc_noargs r p.original p.loc hen hb hi hd hslash hat
  have hgt : ¬ (p.parts.length > 1) := by omega
  have hscope' : inScope (p.parts.head?.getD "") s = false := by
    simpa using hscope
  simp [mustacheEnter, hscope', hthis, hstart, hgt, key, emitErrors]

/-- C1, witness: the scenario of the spec — a bare no-argument
`hello-world` mustache under `staticComponents: true` with no rules —
reports the ambiguity error and resolves nothing. -/
theorem C1_witness :
    mustacheEnter rComp []
      { path := Expr.pathExpression pHelloWorld, params := [], hash := [] } false
      = ⟨none, [ambiguitySyntaxError "hello-world" pHelloWorld.loc], []⟩ ∧
    (ambiguitySyntaxError "hello-world" pHelloWorld.loc).message
      = "unsupported ambiguous syntax" ∧
    (∃ before after, (ambiguitySyntaxError "hello-world" pHelloWorld.loc).message
      = before ++ "ambiguous" ++ after) :=
  C1_noargs_ambiguity_hard_error rComp [] pHelloWorld _ rfl (by decide) (by decide)
    (by decide) (by decide) (by decide) (by decide) (Or.inr (by decide)) (by decide)
    (by decide) (by decide)

/-- Shared: whatever `targetComponent` resolves, its module specifier
lives in the `components` namespace. -/
theorem targetComponent_specifier (r : Resolver) (name : String) (c : ComponentResolution)
    (h : targetComponent r name = some c) :
    c.specifier = "#embroider_compat/components/" ++ name := by
  unfold targetComponent at h
  split at h
  · exact absurd h (by simp)
  split at h
  · exact absurd h (by simp)
  split at h
  · exact absurd h (by simp)
  · injection h with h2
    rw [← h2]

/-- C2: for an ambiguous top-level curly call with arguments (bare name,
not built-in, not ignored): without a `disambiguate` entry, if both
toggles are (effectively) enabled it resolves to a component in the
distinct `ambiguous` specifier namespace — provably different from the
module path `targetComponent` emits for an explicit tag or no-argument
curly resolution of the same name — and if exactly one toggle is
enabled it reports the unconditional error whose detail says the two
settings "do not agree"; when a `disambiguate` entry exists it is
followed instead of either fallback. -/
theorem C2_withargs_ambiguity_policy (r : Resolver) (path : String) (loc : Loc)
    (hb : path ∉ builtInKeywords)
    (hi : isIgnoredComponent r path = false) :
    (((findRules r r.filename).bind fun tr => assocLookup tr.disambiguate path) = none →
      (staticHelpersEnabled r = true → staticComponentsEnabled r = true →
        targetHelperOrComponent r path loc true
          = (some (Resolution.component
              { specifier := "#embroider_compat/ambiguous/" ++ path
                yieldsComponents := match assocLookup r.rules.components path with
                  | some cr => cr.yieldsSafeComponents
                  | none => []
                yieldsArguments := match assocLookup r.rules.components path with
                  | some cr => cr.yieldsArguments
                  | none => []
                argumentsAreComponents := match assocLookup r.rules.components path with
                  | some cr => cr.argumentsAreComponents
                  | none => []
                nameHint := nameHint path }), []) ∧
        "#embroider_compat/ambiguous/" ++ path ≠ "#embroider_compat/components/" ++ path ∧
        (∀ c, targetComponent r path = some c →
          c.specifier = "#embroider_compat/components/" ++ path)) ∧
      (staticHelpersEnabled r ≠ staticComponentsEnabled r →
        targetHelperOrComponent r path loc true
          = (none, [ambiguityToggleError path loc]) ∧
        (∃ before after, (ambiguityToggleError path loc).detail
          = before ++ "do not agree" ++ after))) ∧
    (∀ d, ((findRules r r.filename).bind fun tr => assocLookup tr.disambiguate path) = some d →
      (staticHelpersEnabled r = true ∨ staticComponentsEnabled r = true) →
      targetHelperOrComponent r path loc true
        = (match d with
           | Disamb.component => ((targetComponent r path).map Resolution.component, [])
           | Disamb.helper => ((targetHelper r path).map Resolution.helper, [])
           | Disamb.data => (none, []))) := by
  constructor
  · intro hd
    constructor
    · intro hh hc
      refine ⟨?_, ?_, ?_⟩
      · simp [targetHelperOrComponent, hd, hb, hi, hh, hc]
      · intro heq
        have hl := congrArg String.length heq
        rw [String.length_append, String.length_append] at hl
        have h28 : ("#embroider_compat/ambiguous/" : String).length = 28 := rfl
        have h29 : ("#embroider_compat/components/" : String).length = 29 := rfl
        omega
      · intro c hc'
        exact targetComponent_specifier r path c hc'
    · intro hne
      have hrep : targetHelperOrComponent r path loc true
          = (none, [ambiguityToggleError path loc]) := by
        rcases Bool.eq_false_or_eq_true (staticHelpersEnabled r) with h | h <;>
          rcases Bool.eq_false_or_eq_true (staticComponentsEnabled r) with h' | h' <;>
            first
            | (exfalso; rw [h, h'] at hne; exact hne rfl)
            | simp [targetHelperOrComponent, hd, hb, hi, h, h']
      refine ⟨hrep, ?_⟩
      refine ⟨"this use of \"\x7b\x7b" ++ path ++ "\x7d\x7d\" could be helper \"\x7b\x7b ("
        ++ path ++ ") \x7d\x7d\" or component \"<" ++ capitalize (camelCase path)
        ++ " />\", and your settings for staticHelpers and staticComponents ",
        ". Either switch to one of the unambiguous forms, or make staticHelpers and staticComponents agree, or use a \"disambiguate\" packageRule to work around the problem if its in third-party code you cannot easily fix.", ?_⟩
      have hD : (" />\", and your settings for staticHelpers and staticComponents do not agree. Either switch to one of the unambiguous forms, or make staticHelpers and staticComponents agree, or use a \"disambiguate\" packageRule to work around the problem if its in third-party code you cannot easily fix." : String)
          = " />\", and your settings for staticHelpers and staticComponents "
            ++ "do not agree"
            ++ ". Either switch to one of the unambiguous forms, or make staticHelpers and staticComponents agree, or use a \"disambiguate\" packageRule to work around the problem if its in third-party code you cannot easily fix." := rfl
      simp only [ambiguityToggleError]
      rw [hD]
      simp [String.append_assoc]
  · intro d hd hen
    have hbail : ¬((!staticHelpersEnabled r && !staticComponentsEnabled r)
        || decide (path ∈ builtInKeywords) || isIgnoredComponent r path) = true := by
      rcases hen with h | h <;> simp [h, hb, hi]
    cases d <;> simp [targetHelperOrComponent, hd, hb, hi, hbail]
    all_goals
      intro h1 h2
      rcases hen with h | h
      · simp [h1] at h
      · simp [h2] at h

/-- C2, witness: `hello-world` with arguments under both toggles, no
rules: resolved as a component in the `ambiguous` namespace, with no
error reported, and that namespace differs from the `components` one. -/
theorem C2_witness :
    targetHelperOrComponent rBoth "hello-world" {} true
      = (some (Resolution.component
          { specifier := "#embroider_compat/ambiguous/" ++ "hello-world"
            yieldsComponents := []
            yieldsArguments := []
            argumentsAreComponents := []
            nameHint := nameHint "hello-world" }), []) ∧
    "#embroider_compat/ambiguous/" ++ "hello-world"
      ≠ "#embroider_compat/components/" ++ "hello-world" := by
  have h := ((C2_withargs_ambiguity_policy rBoth "hello-world" {} (by decide)
    (by decide)).1 (by decide)).1 (by decide) (by decide)
  exact ⟨by simpa [assocLookup] using h.1, h.2.1⟩

/-- `Array.prototype.indexOf` finds every member. -/
theorem findIndex_mem {a : String} {l : List String} (h : a ∈ l) :
    ∃ i, findIndex a l = some i := by
  induction l with
  | nil => cases h
  | cons x xs ih =>
    by_cases hx : x = a
    · exact ⟨0, by simp [findIndex, hx]⟩
    · have hxs : a ∈ xs := by
        rcases List.mem_cons.mp h with h' | h'
        · exact absurd h'.symm hx
        · exact h'
      obtain ⟨i, hi⟩ := ih hxs
      exact ⟨i + 1, by simp [findIndex, hx, hi]⟩

/-- Unfolding equations for `safeScan`, one per head shape. -/
theorem safeScan_marker_head (p0 : String) (p1 : Option String) (mm : ComponentBlockMarker)
    (rest : List ScopeEntry) :
    safeScan p0 p1 (ScopeEntry.marker mm :: rest)
      = ((safeScan p0 p1 rest).1, ScopeEntry.marker mm :: (safeScan p0 p1 rest).2) := by
  cases rest with
  | nil => rfl
  | cons b r => cases b <;> rfl

theorem safeScan_bp_nil (p0 : String) (p1 : Option String) (p : List String) :
    safeScan p0 p1 [ScopeEntry.blockParams p] = (false, [ScopeEntry.blockParams p]) := rfl

theorem safeScan_bp_bp (p0 : String) (p1 : Option String) (p q : List String)
    (rest : List ScopeEntry) :
    safeScan p0 p1 (ScopeEntry.blockParams p :: ScopeEntry.blockParams q :: rest)
      = ((safeScan p0 p1 (ScopeEntry.blockParams q :: rest)).1,
         ScopeEntry.blockParams p :: (safeScan p0 p1 (ScopeEntry.blockParams q :: rest)).2) :=
  rfl

theorem safeScan_pair (p0 : String) (p1 : Option String) (bps : List String)
    (mm : ComponentBlockMarker) (rest : List ScopeEntry) :
    safeScan p0 p1 (ScopeEntry.blockParams bps :: ScopeEntry.marker mm :: rest)
      = (match findIndex p0 bps with
         | some idx =>
           ((pairCheck p1 idx mm).1,
            ScopeEntry.blockParams bps :: ScopeEntry.marker (pairCheck p1 idx mm).2 :: rest)
         | none =>
           ((safeScan p0 p1 (ScopeEntry.marker mm :: rest)).1,
            ScopeEntry.blockParams bps :: (safeScan p0 p1 (ScopeEntry.marker mm :: rest)).2)) := by
  cases hfi : findIndex p0 bps <;> simp [safeScan, hfi]

/-- Shared: the scan of `safeComponentInScope` settles at the first
(innermost) parameter-frame/marker pair binding the root segment: with
no matching pair in the prefix, the result is `pairCheck` at that pair,
the prefix passes through untouched, and nothing outside the pair is
read or written. -/
theorem safeScan_append (p0 : String) (p1 : Option String) (bps : List String)
    (m : ComponentBlockMarker) (idx : Nat) (hidx : findIndex p0 bps = some idx) :
    ∀ pre : List ScopeEntry, hasMatchingPair p0 pre = false →
    ∀ post,
      safeScan p0 p1 (pre ++ ScopeEntry.blockParams bps :: ScopeEntry.marker m :: post)
        = ((pairCheck p1 idx m).1,
           pre ++ ScopeEntry.blockParams bps
             :: ScopeEntry.marker (pairCheck p1 idx m).2 :: post) := by
  intro pre
  induction pre with
  | nil => intro _ post; simp [safeScan_pair, hidx]
  | cons a pre' ih =>
    intro hpre post
    cases a with
    | marker mm =>
      have hpre' : hasMatchingPair p0 pre' = false := by
        simpa [hasMatchingPair] using hpre
      simp [safeScan_marker_head, ih hpre' post]
    | blockParams p =>
      cases pre' with
      | nil =>
        simp [safeScan_bp_bp, safeScan_pair, hidx]
      | cons b pre'' =>
        cases b with
        | blockParams q =>
          have hpre' : hasMatchingPair p0 (ScopeEntry.blockParams q :: pre'') = false := by
            simpa [hasMatchingPair] using hpre
          have key := ih hpre' post
          simp only [List.cons_append] at key ⊢
          rw [safeScan_bp_bp, key]
        | marker mm =>
          simp only [hasMatchingPair, Bool.or_eq_false_iff] at hpre
          obtain ⟨hfi, hrest⟩ := hpre
          have hfi' : findIndex p0 p = none := by
            cases hc : findIndex p0 p
            · rfl
            · rw [hc] at hfi; cases hfi
          have key := ih hrest post
          simp only [List.cons_append] at key ⊢
          rw [safeScan_pair, hfi']
          simp only [key]

/-- Shared: whenever the scan answers `true`, some adjacent
parameter-frame/marker pair in the stack binds the root segment at an
index at which `pairCheck` succeeds. -/
theorem safeScan_true_factor (p0 : String) (p1 : Option String) :
    ∀ s : List ScopeEntry, (safeScan p0 p1 s).1 = true →
    ∃ i bps m idx,
      s[i]? = some (ScopeEntry.blockParams bps) ∧
      s[i + 1]? = some (ScopeEntry.marker m) ∧
      findIndex p0 bps = some idx ∧ (pairCheck p1 idx m).1 = true := by
  intro s
  induction s with
  | nil => intro h; simp [safeScan] at h
  | cons a tail ih =>
    intro h
    cases a with
    | marker mm =>
      rw [safeScan_marker_head] at h
      obtain ⟨i, bps, m, idx, h1, h2, h3, h4⟩ := ih h
      exact ⟨i + 1, bps, m, idx, by simpa using h1, by simpa using h2, h3, h4⟩
    | blockParams p =>
      cases tail with
      | nil => rw [safeScan_bp_nil] at h; cases h
      | cons b rest =>
        cases b with
        | blockParams q =>
          rw [safeScan_bp_bp] at h
          obtain ⟨i, bps, m, idx, h1, h2, h3, h4⟩ := ih h
          exact ⟨i + 1, bps, m, idx, by simpa using h1, by simpa using h2, h3, h4⟩
        | marker m2 =>
          cases hfi : findIndex p0 p with
          | some idx2 =>
            simp only [safeScan_pair, hfi] at h
            exact ⟨0, p, m2, idx2, rfl, by simp, hfi, h⟩
          | none =>
            simp only [safeScan_pair, hfi] at h
            obtain ⟨i, bps, m, idx, h1, h2, h3, h4⟩ := ih h
            exact ⟨i + 1, bps, m, idx, by simpa using h1, by simpa using h2, h3, h4⟩

/-- C5: `safeComponentInScope` resolves a (at most two-segment) name
against the nearest enclosing marker pair binding its root segment:
when no closer pair in the stack prefix binds the root and the adjacent
frame/marker pair does, the result and the marker update are those of
that pair alone, and the entire remainder of the stack beyond the pair
passes through unread and unmodified, whatever it contains — once the
root is matched the search has terminated, successfully or not. -/
theorem C5_nearest_pair_shadows (name : String) (pre : List ScopeEntry)
    (bps : List String) (m : ComponentBlockMarker)
    (hpre : hasMatchingPair ((splitOnChar '.' name).headD "") pre = false)
    (hbind : (splitOnChar '.' name).headD "" ∈ bps) :
    ∃ b m', ∀ post,
      safeComponentInScope name
        (pre ++ ScopeEntry.blockParams bps :: ScopeEntry.marker m :: post)
        = (b, pre ++ ScopeEntry.blockParams bps :: ScopeEntry.marker m' :: post) := by
  by_cases hlen : (splitOnChar '.' name).length > 2
  · exact ⟨false, m, fun post => by simp [safeComponentInScope, hlen]⟩
  · obtain ⟨idx, hidx⟩ := findIndex_mem hbind
    refine ⟨(pairCheck ((splitOnChar '.' name).get? 1) idx m).1,
            (pairCheck ((splitOnChar '.' name).get? 1) idx m).2, fun post => ?_⟩
    simp only [safeComponentInScope, hlen, if_false]
    exact safeScan_append _ _ bps m idx hidx pre hpre post

/-- C5, witness: a single-segment name bound by the innermost frame of
a frame/marker pair at the top of the stack. -/
theorem C5_witness :
    ∃ b m', ∀ post,
      safeComponentInScope "x"
        ([] ++ ScopeEntry.blockParams ["x"] :: ScopeEntry.marker mSafeYield :: post)
        = (b, [] ++ ScopeEntry.blockParams ["x"] :: ScopeEntry.marker m' :: post) :=
  C5_nearest_pair_shadows "x" [] ["x"] mSafeYield (by decide) (by decide)

/-- C6, counterexample to the claim as stated: for the two-segment path
`x.f`, the matched marker's `yieldsSafeComponents` entry at the root's
position is the boolean `true` — not a mapping — yet
`safeComponentInScope` returns `true`, through the mapping-valued
`yieldsArguments` entry at the same position (source lines 936-943). -/
theorem C6_counterexample :
    (safeComponentInScope "x.f"
      [ScopeEntry.blockParams ["x"], ScopeEntry.marker mBoolAndMap]).1 = true ∧
    mBoolAndMap.resolution.yieldsComponents.get? 0 = some (YCEntry.b true) ∧
    (splitOnChar '.' "x.f").length = 2 := by decide

/-- C6, amended: a two-segment path can be reported safe in exactly two
ways, both requiring a mapping: through a mapping-valued
`yieldsSafeComponents` entry whose second-level field is `true`, or —
when the `yieldsSafeComponents` entry is *not* a mapping (boolean or
absent) — through a mapping-valued `yieldsArguments` entry holding a
source-argument string at the field. A boolean `yieldsSafeComponents`
entry alone never produces `true`, but it does not prevent the
`yieldsArguments` route. -/
theorem C6_two_segment_mapping_required :
    (∀ (name : String) (s : List ScopeEntry),
      (splitOnChar '.' name).length = 2 →
      (safeComponentInScope name s).1 = true →
      ∃ i bps m idx,
        s[i]? = some (ScopeEntry.blockParams bps) ∧
        s[i + 1]? = some (ScopeEntry.marker m) ∧
        findIndex ((splitOnChar '.' name).headD "") bps = some idx ∧
        (pairCheck ((splitOnChar '.' name).get? 1) idx m).1 = true) ∧
    (∀ (f : String) (idx : Nat) (m : ComponentBlockMarker),
      (pairCheck (some f) idx m).1 = true →
      (∃ fields, m.resolution.yieldsComponents.get? idx = some (YCEntry.m fields) ∧
        assocLookup fields f = some true) ∨
      ((∀ fields, m.resolution.yieldsComponents.get? idx ≠ some (YCEntry.m fields)) ∧
       ∃ fields arg, m.resolution.yieldsArguments.get? idx = some (YAEntry.m fields) ∧
        assocLookup fields f = some arg)) := by
  constructor
  · intro name s hlen hsafe
    have hgt : ¬ (splitOnChar '.' name).length > 2 := by omega
    simp only [safeComponentInScope, hgt, if_false] at hsafe
    exact safeScan_true_factor _ _ s hsafe
  · intro f idx m h
    cases hyc : m.resolution.yieldsComponents.get? idx with
    | some e =>
      cases e with
      | m fields =>
        left
        refine ⟨fields, rfl, ?_⟩
        simp only [pairCheck, hyc] at h
        cases hal : assocLookup fields f with
        | some b =>
          cases b
          · rw [hal] at h; cases h
          · rfl
        | none => rw [hal] at h; cases h
      | b bb =>
        right
        simp only [pairCheck, hyc] at h
        refine ⟨by simp [hyc], ?_⟩
        cases hya : m.resolution.yieldsArguments.get? idx with
        | some e2 =>
          cases e2 with
          | m fields =>
            cases hal : assocLookup fields f with
            | some arg => exact ⟨fields, arg, rfl, hal⟩
            | none =>
              rw [List.get?_eq_getElem?] at hya
              simp [hya, hal] at h
          | s arg =>
            rw [List.get?_eq_getElem?] at hya
            simp [hya] at h
        | none =>
          rw [List.get?_eq_getElem?] at hya
          simp [hya] at h
    | none =>
      right
      simp only [pairCheck, hyc] at h
      refine ⟨by simp [hyc], ?_⟩
      cases hya : m.resolution.yieldsArguments.get? idx with
      | some e2 =>
        cases e2 with
        | m fields =>
          cases hal : assocLookup fields f with
          | some arg => exact ⟨fields, arg, rfl, hal⟩
          | none =>
            rw [List.get?_eq_getElem?] at hya
            simp [hya, hal] at h
        | s arg =>
          rw [List.get?_eq_getElem?] at hya
          simp [hya] at h
      | none =>
        rw [List.get?_eq_getElem?] at hya
        simp [hya] at h

/-- C6, witness: the amended theorem applied to the boolean-plus-mapping
marker, where safety holds through the `yieldsArguments` mapping. -/
theorem C6_witness :
    ∃ i bps m idx,
      ([ScopeEntry.blockParams ["x"], ScopeEntry.marker mBoolAndMap])[i]?
        = some (ScopeEntry.blockParams bps) ∧
      ([ScopeEntry.blockParams ["x"], ScopeEntry.marker mBoolAndMap])[i + 1]?
        = some (ScopeEntry.marker m) ∧
      findIndex ((splitOnChar '.' "x.f").headD "") bps = some idx ∧
      (pairCheck ((splitOnChar '.' "x.f").get? 1) idx m).1 = true :=
  C6_two_segment_mapping_required.1 "x.f"
    [ScopeEntry.blockParams ["x"], ScopeEntry.marker mBoolAndMap] (by decide) (by decide)

/-- C7: the classification performed by `handleComponentHelper` under
enabled static components: a string literal (or text node) resolves its
text as a component name; a bare path proven safe by
`safeComponentInScope`, or — failing that — listed in the file's
`safeInteriorPaths`, is left untouched; any other bare path errors with
detail naming the path; nested `component`/`ensure-safe-component`
sub-calls (and naked-mustache wrappers, which recurse) are left
untouched; everything else errors with detail "cannot statically
analyze this expression"; the message names the originating component
and argument exactly when the call was implied by an
`argumentsAreComponents` fact. -/
theorem C7_dynamic_component_classification (r : Resolver)
    (hsc : staticComponentsEnabled r = true) :
    (∀ s v loc imp, handleComponentHelper r s (Expr.stringLiteral v loc) imp
      = ((targetComponent r v).map Resolution.component, s)) ∧
    (∀ s chars loc imp, handleComponentHelper r s (Expr.textNode chars loc) imp
      = ((targetComponent r chars).map Resolution.component, s)) ∧
    (∀ s (p : PathExpr) imp,
      ((safeComponentInScope p.original s).1 = true →
        handleComponentHelper r s (Expr.pathExpression p) imp
          = (none, (safeComponentInScope p.original s).2)) ∧
      ((safeComponentInScope p.original s).1 = false →
        (match findRules r r.filename with
         | some tr => tr.safeInteriorPaths.contains p.original
         | none => false) = true →
        handleComponentHelper r s (Expr.pathExpression p) imp
          = (none, (safeComponentInScope p.original s).2)) ∧
      ((safeComponentInScope p.original s).1 = false →
        (match findRules r r.filename with
         | some tr => tr.safeInteriorPaths.contains p.original
         | none => false) = false →
        handleComponentHelper r s (Expr.pathExpression p) imp
          = (some (Resolution.error ⟨implMessage imp, p.original, p.loc⟩),
             (safeComponentInScope p.original s).2))) ∧
    (∀ s inner loc imp, pathOriginalIs inner "component" = true →
      handleComponentHelper r s (Expr.subExpression inner loc) imp = (none, s)) ∧
    (∀ s inner loc imp, pathOriginalIs inner "ensure-safe-component" = true →
      handleComponentHelper r s (Expr.subExpression inner loc) imp = (none, s)) ∧
    (∀ s inner nP nH loc imp, ¬(nH = 0 ∧ nP = 0) → pathOriginalIs inner "component" = true →
      handleComponentHelper r s (Expr.mustache inner nP nH loc) imp = (none, s)) ∧
    (∀ s inner loc imp, handleComponentHelper r s (Expr.mustache inner 0 0 loc) imp
      = handleComponentHelper r s inner imp) ∧
    (∀ s loc imp, handleComponentHelper r s (Expr.other loc) imp
      = (some (Resolution.error
          ⟨implMessage imp, "cannot statically analyze this expression", loc⟩), s)) ∧
    (∀ s inner nP nH loc imp, ¬(nH = 0 ∧ nP = 0) → pathOriginalIs inner "component" = false →
      handleComponentHelper r s (Expr.mustache inner nP nH loc) imp
        = (some (Resolution.error
            ⟨implMessage imp, "cannot statically analyze this expression", loc⟩), s)) ∧
    (∀ s inner loc imp, pathOriginalIs inner "component" = false →
      pathOriginalIs inner "ensure-safe-component" = false →
      handleComponentHelper r s (Expr.subExpression inner loc) imp
        = (some (Resolution.error
            ⟨implMessage imp, "cannot statically analyze this expression", loc⟩), s)) ∧
    (∀ ib, implMessage (some ib)
      = "argument \"" ++ ib.argumentName ++ "\" to component \"" ++ ib.componentName
        ++ "\" is treated as a component, but the value you're passing is dynamic") ∧
    implMessage none = "Unsafe dynamic component" := by
  refine ⟨?_, ?_, ?_, ?_, ?_, ?_, ?_, ?_, ?_, ?_, fun ib => rfl, rfl⟩
  · intro s v loc imp
    simp [handleComponentHelper, afterLocator, targetComponentHelper, hsc]
  · intro s chars loc imp
    simp [handleComponentHelper, afterLocator, targetComponentHelper, hsc]
  · intro s p imp
    refine ⟨fun hsafe => ?_, fun hsafe hint => ?_, fun hsafe hint => ?_⟩
    · simp [handleComponentHelper, afterLocator, hsafe]
    · simp at hint
      simp [handleComponentHelper, afterLocator, targetComponentHelper, hsc, hsafe, hint]
    · simp at hint
      simp [handleComponentHelper, afterLocator, targetComponentHelper, hsc, hsafe, hint]
  · intro s inner loc imp hin
    simp [handleComponentHelper, hin]
  · intro s inner loc imp hin
    by_cases hc : pathOriginalIs inner "component" = true <;>
      simp [handleComponentHelper, hin, hc]
  · intro s inner nP nH loc imp hargs hin
    simp [handleComponentHelper, hargs, hin]
  · intro s inner loc imp
    simp [handleComponentHelper]
  · intro s loc imp
    simp [handleComponentHelper, afterLocator, targetComponentHelper, hsc]
  · intro s inner nP nH loc imp hargs hin
    simp [handleComponentHelper, afterLocator, targetComponentHelper, hsc, hargs, hin]
  · intro s inner loc imp hc he
    simp [handleComponentHelper, afterLocator, targetComponentHelper, hsc, hc, he]

/-- C7, witness: the classification applied under the
components-enabled resolver: a string literal argument resolves as a
component name. -/
theorem C7_witness :
    handleComponentHelper rComp [] (Expr.stringLiteral "x" {}) none
      = ((targetComponent rComp "x").map Resolution.component, []) :=
  (C7_dynamic_component_classification rComp rfl).1 [] "x" {} none

/-- C8, amended: starting from a well-placed stack, the walk restores
the stack's skeleton on exit (the marker is popped together with its
parameter frame), every stack state observed at the entry of a node's
handling keeps each `ComponentBlockMarker` at index `i+1` directly
outside the `BlockParameterFrame` at index `i` that annotates it, and
the states observed by marker exit callbacks satisfy the same placement
up to the fired marker itself, which transiently sits at the top of the
stack with its parameter frame already removed (source `pop`, lines
874-881, runs `next.exit(next)` between its two `shift`s). -/
theorem C8_marker_placement (r : Resolver) (t : TNode) (s : List ScopeEntry)
    (hm : MarkerWellPlaced s) :
    shape (walkNode r t s).stack = shape s ∧
    (∀ st ∈ (walkNode r t s).entrySt, MarkerWellPlaced st) ∧
    (∀ st ∈ (walkNode r t s).exitSt, RelaxedPlaced st) :=
  walk_nodeP r t s hm

/-- C8, witness: the amended invariant on the concrete component block
with a component-argument rule, starting from the empty stack. -/
theorem C8_witness :
    shape (walkNode rArgRule treeArgBlock []).stack = shape [] ∧
    (∀ st ∈ (walkNode rArgRule treeArgBlock []).entrySt, MarkerWellPlaced st) ∧
    (∀ st ∈ (walkNode rArgRule treeArgBlock []).exitSt, RelaxedPlaced st) :=
  C8_marker_placement rArgRule treeArgBlock [] mwp_nil

/-- C8, counterexample to the claim as stated: walking the component
block `a-b` (whose rule lists `argumentsAreComponents`) reaches a scope
stack state — observed, and queried through `safeComponentInScope`,
while the marker's exit callback resolves the `title` argument — in
which the `ComponentBlockMarker` sits at the top of the stack with no
`BlockParameterFrame` above it: `pop` fires the exit callback after
shifting the parameter frame but before shifting the marker. -/
theorem C8_counterexample :
    ∃ st ∈ (walkNode rArgRule treeArgBlock []).exitSt, ¬ MarkerWellPlaced st := by
  refine ⟨[ScopeEntry.marker mArgBlock], by decide, ?_⟩
  intro hm
  have := (hm 0 mArgBlock (by simp)).1
  omega

/-- C9: registering an audit collector makes all three static toggles
effective regardless of configuration — each target resolution then
behaves exactly as it would with the corresponding toggle set — whereas
with no collector and the toggle off, the corresponding target
resolution returns no resolution for every name. -/
theorem C9_audit_forces_static (r : Resolver) (name : String) :
    (r.auditHandler = true →
      staticComponentsEnabled r = true ∧ staticHelpersEnabled r = true ∧
      staticModifiersEnabled r = true ∧
      targetComponent r name
        = targetComponent { r with config := { r.config with staticComponents := true } } name ∧
      targetHelper r name
        = targetHelper { r with config := { r.config with staticHelpers := true } } name ∧
      targetElementModifier r name
        = targetElementModifier
            { r with config := { r.config with staticModifiers := true } } name) ∧
    (r.auditHandler = false →
      (r.config.staticComponents = false → targetComponent r name = none) ∧
      (r.config.staticHelpers = false → targetHelper r name = none) ∧
      (r.config.staticModifiers = false → targetElementModifier r name = none)) := by
  constructor
  · intro h
    refine ⟨by simp [staticComponentsEnabled, h], by simp [staticHelpersEnabled, h],
      by simp [staticModifiersEnabled, h], ?_, ?_, ?_⟩
    · simp [targetComponent, staticComponentsEnabled, isIgnoredComponent, nameHint, h]
    · simp [targetHelper, staticHelpersEnabled, nameHint, h]
    · simp [targetElementModifier, staticModifiersEnabled, nameHint, h]
  · intro h
    refine ⟨fun hc => ?_, fun hc => ?_, fun hc => ?_⟩
    · simp [targetComponent, staticComponentsEnabled, h, hc]
    · simp [targetHelper, staticHelpersEnabled, h, hc]
    · simp [targetElementModifier, staticModifiersEnabled, h, hc]

/-- C9, witness: the audit resolver, with every toggle off, behaves as
fully static on the name `x`. -/
theorem C9_witness :
    staticComponentsEnabled rAudit = true ∧ staticHelpersEnabled rAudit = true ∧
    staticModifiersEnabled rAudit = true ∧
    targetComponent rAudit "x"
      = targetComponent
          { rAudit with config := { rAudit.config with staticComponents := true } } "x" ∧
    targetHelper rAudit "x"
      = targetHelper { rAudit with config := { rAudit.config with staticHelpers := true } } "x" ∧
    targetElementModifier rAudit "x"
      = targetElementModifier
          { rAudit with config := { rAudit.config with staticModifiers := true } } "x" :=
  (C9_audit_forces_static rAudit "x").1 rfl

/-- C10: a mustache in attribute-value position (parent node an
`AttrNode`) whose callee passes the scope/this/dotted/at-sign checks
and is not a `component`/`helper` keyword form is always resolved as a
helper — `targetHelper`, yielding a helper resolution or none — and in
that position the engine never produces a component resolution, never
an error, and reports nothing, whether or not the call has arguments. -/
theorem C10_attr_position_resolves_helper (r : Resolver) (s : List ScopeEntry)
    (node : MustacheStatementNode) (p : PathExpr)
    (hpath : node.path = Expr.pathExpression p)
    (hscope : inScope (p.parts.headD "") s = false)
    (hthis : p.isThis = false)
    (hparts : p.parts.length ≤ 1)
    (hstart : strStartsWithChar p.original '@' = false)
    (hcomp : ¬(p.original = "component" ∧ node.params ≠ []))
    (hhelp : ¬(p.original = "helper" ∧ node.params ≠ [])) :
    mustacheEnter r s node true
      = ⟨(targetHelper r p.original).map Resolution.helper, [], s⟩ ∧
    (∀ c, (mustacheEnter r s node true).resolution ≠ some (Resolution.component c)) ∧
    (∀ e, (mustacheEnter r s node true).resolution ≠ some (Resolution.error e)) ∧
    (mustacheEnter r s node true).reported = [] := by
  have hscope' : inScope (p.parts.head?.getD "") s = false := by simpa using hscope
  have hgt : ¬ p.parts.length > 1 := by omega
  have hmain : mustacheEnter r s node true
      = ⟨(targetHelper r p.original).map Resolution.helper, [], s⟩ := by
    simp [mustacheEnter, hpath, hscope', hthis, hgt, hstart, hcomp, hhelp]
  refine ⟨hmain, ?_, ?_, by simp [hmain]⟩
  · intro c
    rw [hmain]
    cases h : targetHelper r p.original <;> simp [h]
  · intro e
    rw [hmain]
    cases h : targetHelper r p.original <;> simp [h]

/-- C10, witness: an attribute-position `hello-world` mustache under the
helpers-enabled resolver resolves through `targetHelper` with nothing
reported. -/
theorem C10_witness :
    mustacheEnter rHelp []
      { path := Expr.pathExpression pHelloWorld, params := [], hash := [] } true
      = ⟨(targetHelper rHelp pHelloWorld.original).map Resolution.helper, [], []⟩ ∧
    (∀ c, (mustacheEnter rHelp []
      { path := Expr.pathExpression pHelloWorld, params := [], hash := [] } true).resolution
        ≠ some (Resolution.component c)) ∧
    (∀ e, (mustacheEnter rHelp []
      { path := Expr.pathExpression pHelloWorld, params := [], hash := [] } true).resolution
        ≠ some (Resolution.error e)) ∧
    (mustacheEnter rHelp []
      { path := Expr.pathExpression pHelloWorld, params := [], hash := [] } true).reported
      = [] :=
  C10_attr_position_resolves_helper rHelp [] _ pHelloWorld rfl (by decide) (by decide)
    (by decide) (by decide) (by decide) (by decide)

end EmbroiderResolver
